import Mathlib

/-!
# Verification of the LU-Toolbox-UGC-Render camera fitter

Shallow embedding of the camera-framing core of the repository
(files cam_fit.py and cam_fit_ui.py) and proofs about it.

Modelling conventions:
* Python floats are modelled by exact rational arithmetic (`Rat`); float
  literals such as 0.1, 1e-6, 1e-9 become the rationals 1/10, 1/1000000,
  1/1000000000.
* The transcendental functions math.tan, math.atan and the constant
  math.radians(50.0) are not rational; they are abstracted as the fields of
  a `FloatModel` parameter.  Every theorem below holds for an arbitrary
  model, and concrete witnesses instantiate it with simple rational stubs.
* A camera world matrix is translation times rotation (Blender cameras in
  this addon carry no scale), so the inverse transform of
  cam.matrix_world maps a world point p to camera space as
  (right.(p-loc), up.(p-loc), back.(p-loc)) where (right, up, back) is the
  orthonormal basis of the rotation and back = -fwd.  The embedding stores
  the basis vectors directly; orthonormality is a hypothesis of the
  theorems that need it and is discharged at concrete witnesses.
* Host operators (bpy.ops.view3d.view_camera, camera_to_view_selected) are
  external to the repository; they are modelled as arbitrary functions
  acting on the camera and the selection state.
-/

set_option autoImplicit false

namespace UGC

/-- 3-vector of rationals (mathutils.Vector). -/
structure Vec3 where
  x : Rat
  y : Rat
  z : Rat
  deriving DecidableEq

instance : Add Vec3 := ⟨fun a b => ⟨a.x + b.x, a.y + b.y, a.z + b.z⟩⟩
instance : Sub Vec3 := ⟨fun a b => ⟨a.x - b.x, a.y - b.y, a.z - b.z⟩⟩
instance : Neg Vec3 := ⟨fun a => ⟨-a.x, -a.y, -a.z⟩⟩
instance : SMul Rat Vec3 := ⟨fun c v => ⟨c * v.x, c * v.y, c * v.z⟩⟩

/-- Dot product. -/
def dot (a b : Vec3) : Rat := a.x * b.x + a.y * b.y + a.z * b.z

/-- An affine world transform (an object's matrix_world): linear part given
by its three rows and a translation column. -/
structure Aff where
  r1 : Vec3
  r2 : Vec3
  r3 : Vec3
  t : Vec3
  deriving DecidableEq

/-- Apply an affine transform to a point (mw @ v). -/
def Aff.apply (m : Aff) (v : Vec3) : Vec3 :=
  ⟨dot m.r1 v + m.t.x, dot m.r2 v + m.t.y, dot m.r3 v + m.t.z⟩

/-- Rational stand-ins for the transcendental pieces of the source:
math.tan, math.atan and math.radians(50.0). -/
structure FloatModel where
  rtan : Rat → Rat
  ratan : Rat → Rat
  rad50 : Rat

/-- Camera projection kind (cd.type). -/
inductive CamType where
  | PERSP
  | ORTHO
  deriving DecidableEq

/-- Sensor fit policy (cd.sensor_fit). -/
inductive SensorFit where
  | AUTO
  | HORIZONTAL
  | VERTICAL
  deriving DecidableEq

/-- Camera data block (cam.data): projection parameters the fitter can read,
plus the clipping planes, none of which it may write. -/
structure CamData where
  ctype : CamType
  lens : Rat
  sensor_width : Rat
  sensor_height : Rat
  sensor_fit : SensorFit
  angle_x : Rat
  angle_y : Rat
  ortho_scale : Rat
  clip_start : Rat
  clip_end : Rat
  deriving DecidableEq

/-- A camera object: world position plus the orthonormal basis derived from
its rotation quaternion in _cam_axes (right = q@(1,0,0), up = q@(0,1,0),
fwd = -(q@(0,0,1))), and its data block. -/
structure Camera where
  loc : Vec3
  right : Vec3
  up : Vec3
  fwd : Vec3
  data : CamData
  deriving DecidableEq

/-- Render settings (scene.render). -/
structure RenderSettings where
  resolution_x : Rat
  resolution_y : Rat
  resolution_percentage : Rat
  deriving DecidableEq

/-- Camera-space coordinates of a world point, with the camera basis taken
from cam but the position given explicitly (r_max_at temporarily moves
cam.location before inverting matrix_world): cp = R^T (p - loc), whose z row
is back = -fwd. -/
def camSpace (cam : Camera) (loc : Vec3) (p : Vec3) : Vec3 :=
  ⟨dot cam.right (p - loc), dot cam.up (p - loc), -(dot cam.fwd (p - loc))⟩

/-- Python truthiness of an optional float: None and 0.0 both select the
default (the idiom fx or math.radians(50.0)). -/
def pyOrF (o : Option Rat) (d : Rat) : Rat :=
  match o with
  | none => d
  | some v => if v = 0 then d else v

/-- _get_fov_xy (cam_fit.py lines 71-99): ORTHO cameras yield (None, None);
perspective cameras yield (angle_x, angle_y) when both are nonzero (Python
truthiness of the if fx and fy test), otherwise the sensor/lens fallback. -/
def get_fov_xy (fm : FloatModel) (cd : CamData) (render : RenderSettings) :
    Option Rat × Option Rat :=
  if cd.ctype = CamType.ORTHO then (none, none)
  else if cd.angle_x ≠ 0 ∧ cd.angle_y ≠ 0 then (some cd.angle_x, some cd.angle_y)
  else
    let sw := cd.sensor_width
    let sh := cd.sensor_height
    let rx := render.resolution_x * render.resolution_percentage / 100
    let ry := render.resolution_y * render.resolution_percentage / 100
    let aspect := if ry ≠ 0 then rx / ry else 1
    match cd.sensor_fit with
    | SensorFit.VERTICAL =>
      let fy := 2 * fm.ratan (sh * (1/2) / cd.lens)
      let fx := 2 * fm.ratan (fm.rtan (fy * (1/2)) * aspect)
      (some fx, some fy)
    | SensorFit.HORIZONTAL =>
      let fx := 2 * fm.ratan (sw * (1/2) / cd.lens)
      let fy := 2 * fm.ratan (fm.rtan (fx * (1/2)) / max (1/1000000000) aspect)
      (some fx, some fy)
    | SensorFit.AUTO =>
      let sratio := if sh ≠ 0 then sw / sh else 1
      if aspect ≥ sratio then
        let fx := 2 * fm.ratan (sw * (1/2) / cd.lens)
        let fy := 2 * fm.ratan (fm.rtan (fx * (1/2)) / max (1/1000000000) aspect)
        (some fx, some fy)
      else
        let fy := 2 * fm.ratan (sh * (1/2) / cd.lens)
        let fx := 2 * fm.ratan (fm.rtan (fy * (1/2)) * aspect)
        (some fx, some fy)

/-- Object kinds relevant to _is_render_candidate. -/
inductive ObjType where
  | MESH
  | CURVE
  | SURFACE
  | FONT
  | META
  | VOLUME
  | EMPTY
  | CAMERA
  | LIGHT
  deriving DecidableEq

/-- A scene object as the sampler sees it.  id identifies the object for
selection bookkeeping; toMeshResult is the outcome of
obj.evaluated_get(depsgraph).to_mesh() (none models the RuntimeError
path, some vs gives the evaluated local-space vertices); evalType and
evalMatrixWorld belong to the evaluated object, matrixWorld and boundBox
to the original one. -/
structure SceneObject where
  id : Nat
  hide_render : Bool
  visible : Bool
  objType : ObjType
  evalType : ObjType
  toMeshResult : Option (List Vec3)
  evalMatrixWorld : Aff
  matrixWorld : Aff
  boundBox : Option (List Vec3)
  deriving DecidableEq

/-- _is_render_candidate (cam_fit.py lines 18-23). -/
def is_render_candidate (o : SceneObject) : Bool :=
  if o.hide_render then false
  else if ¬ o.visible then false
  else match o.objType with
    | ObjType.MESH => true
    | ObjType.CURVE => true
    | ObjType.SURFACE => true
    | ObjType.FONT => true
    | ObjType.META => true
    | ObjType.VOLUME => true
    | ObjType.EMPTY => true
    | _ => false

/-- _world_points_evaluated (cam_fit.py lines 38-60): the loop accumulates,
for every render candidate, either the evaluated world-space mesh vertices
(when the evaluated object is a MESH and to_mesh succeeded) or the original
object's world-space bounding-box corners (for non-mesh evaluated objects
with a truthy bound_box).  A mesh whose to_mesh raised contributes
nothing. -/
def world_points_evaluated (objs : List SceneObject) : List Vec3 :=
  objs.foldl (fun pts obj =>
    if ¬ is_render_candidate obj then pts
    else if obj.evalType = ObjType.MESH then
      match obj.toMeshResult with
      | some vs => pts ++ vs.map (fun v => obj.evalMatrixWorld.apply v)
      | none => pts
    else match obj.boundBox with
      | some corners =>
        if corners = [] then pts
        else pts ++ corners.map (fun c => obj.matrixWorld.apply c)
      | none => pts) []

/-- The body of r_max_at (cam_fit.py lines 191-201): maximum over the points
of the normalized extent, using the triple max of the source and the depth
floor-clamp d = max(1e-9, -cp.z), with the camera temporarily moved to
loc. -/
def r_max_at (cam : Camera) (pts : List Vec3) (tanFx tanFy : Rat) (loc : Vec3) : Rat :=
  pts.foldl (fun rmax p =>
    let cp := camSpace cam loc p
    let d := max (1/1000000000) (-cp.z)
    max (max rmax (|cp.x| / (d * tanFx))) (|cp.y| / (d * tanFy))) 0

/-- tanFx of the solve: max(math.tan((fx or math.radians(50.0)) * 0.5), 1e-9)
(cam_fit.py line 188). -/
def fitTanFx (fm : FloatModel) (cam : Camera) (render : RenderSettings) : Rat :=
  max (fm.rtan (pyOrF (get_fov_xy fm cam.data render).1 fm.rad50 * (1/2))) (1/1000000000)

/-- tanFy of the solve (cam_fit.py line 189). -/
def fitTanFy (fm : FloatModel) (cam : Camera) (render : RenderSettings) : Rat :=
  max (fm.rtan (pyOrF (get_fov_xy fm cam.data render).2 fm.rad50 * (1/2)) ) (1/1000000000)

/-- The extent function probed by the search: r_max_at evaluated at
base + fwd * t (cam_fit.py lines 206, 215, 231). -/
def fitR (fm : FloatModel) (cam : Camera) (render : RenderSettings) (pts : List Vec3)
    (t : Rat) : Rat :=
  r_max_at cam pts (fitTanFx fm cam render) (fitTanFy fm cam render) (cam.loc + t • cam.fwd)

/-- cur = r_max_at(base) (cam_fit.py line 206). -/
def fitCur (fm : FloatModel) (cam : Camera) (render : RenderSettings) (pts : List Vec3) : Rat :=
  fitR fm cam render pts 0

/-- go_forward = cur < target with target = 1.0 (cam_fit.py lines 207-208). -/
def fitGoForward (fm : FloatModel) (cam : Camera) (render : RenderSettings)
    (pts : List Vec3) : Bool :=
  decide (fitCur fm cam render pts < 1)

/-- The bracket found by the expanding search: (lo_t, hi_t, lo_v, hi_v) at the
moment of crossing. -/
structure Bracket where
  loT : Rat
  hiT : Rat
  loV : Rat
  hiV : Rat
  deriving DecidableEq

/-- Result of the expanding-bracket loop: the bracket when the target was
crossed, the final hi_t either way, and the offsets probed (instrumentation
recording where r_max_at was evaluated; the source evaluates it exactly at
these offsets). -/
structure BracketOut where
  found : Option Bracket
  hiT : Rat
  probes : List Rat
  deriving DecidableEq

/-- Crossing test of the bracket loop (cam_fit.py line 216). -/
def crossedB (goForward : Bool) (v : Rat) : Bool :=
  if goForward then decide (v ≥ 1) else decide (v ≤ 1)

/-- The expanding-bracket loop (cam_fit.py lines 210-222): test_t = hi_t plus
or minus step, doubling the step, for at most the given fuel (40 in the
source); on crossing the bracket keeps the previous hi as lo. -/
def bracketGo (f : Rat → Rat) (goForward : Bool) :
    Nat → Rat → Rat → Rat → BracketOut
  | 0, hiT, _, _ => ⟨none, hiT, []⟩
  | Nat.succ n, hiT, hiV, step =>
    let testT := hiT + (if goForward then step else -step)
    let v := f testT
    if crossedB goForward v then ⟨some ⟨hiT, testT, hiV, v⟩, testT, [testT]⟩
    else
      let rest := bracketGo f goForward n testT v (step * 2)
      ⟨rest.found, rest.hiT, testT :: rest.probes⟩

/-- The bracket search as the solve runs it: fuel 40, hi_t = 0, hi_v = cur,
step = 0.1 (cam_fit.py lines 210-213). -/
def fitBracket (fm : FloatModel) (cam : Camera) (render : RenderSettings)
    (pts : List Vec3) : BracketOut :=
  bracketGo (fitR fm cam render pts) (fitGoForward fm cam render pts) 40 0
    (fitCur fm cam render pts) (1/10)

/-- Bisection state (lo_t, hi_t, lo_v, hi_v). -/
structure Bisect4 where
  loT : Rat
  hiT : Rat
  loV : Rat
  hiV : Rat
  deriving DecidableEq

/-- Which side the midpoint value falls on (cam_fit.py lines 232-241):
forward keeps v < 1 on the lo side, backward keeps v > 1 on the lo side. -/
def lowSideB (goForward : Bool) (v : Rat) : Bool :=
  if goForward then decide (v < 1) else decide (v > 1)

/-- The bisection loop (cam_fit.py lines 229-241), also returning the probed
midpoints. -/
def bisectGo (f : Rat → Rat) (goForward : Bool) :
    Nat → Bisect4 → Bisect4 × List Rat
  | 0, s => (s, [])
  | Nat.succ n, s =>
    let midT := (1/2) * (s.loT + s.hiT)
    let v := f midT
    let s1 : Bisect4 :=
      if lowSideB goForward v then ⟨midT, s.hiT, v, s.hiV⟩ else ⟨s.loT, midT, s.loV, v⟩
    let rest := bisectGo f goForward n s1
    (rest.1, midT :: rest.2)

/-- The bisection as the solve runs it from a found bracket (fuel 40). -/
def fitBisect (fm : FloatModel) (cam : Camera) (render : RenderSettings)
    (pts : List Vec3) (b : Bracket) : Bisect4 × List Rat :=
  bisectGo (fitR fm cam render pts) (fitGoForward fm cam render pts) 40
    ⟨b.loT, b.hiT, b.loV, b.hiV⟩

/-- Insertion into a sorted list, for the Python depths.sort(). -/
def insertSorted (x : Rat) : List Rat → List Rat
  | [] => [x]
  | y :: ys => if x ≤ y then x :: y :: ys else y :: insertSorted x ys

/-- Ascending sort (list.sort of the source). -/
def sortAsc (l : List Rat) : List Rat := l.foldr insertSorted []

/-- _tiny_margin_dolly (cam_fit.py lines 151-174): pure Z move scaled by the
median positive depth of the points (est defaults to 1.0), a no-op when the
framing scale is within 1e-6 of 1. -/
def tiny_margin_dolly (cam : Camera) (framing_scale : Rat) (pts : List Vec3) : Camera :=
  if |framing_scale - 1| < 1/1000000 then cam
  else
    let fwd := cam.fwd
    let est : Rat :=
      if pts = [] then 1
      else
        let depths := pts.filterMap (fun p =>
          let dz := -(camSpace cam cam.loc p).z
          if dz > 1/1000000 then some dz else none)
        if depths = [] then 1
        else (sortAsc depths).getD (depths.length / 2) 0
    let delta := (framing_scale - 1) * (1/10) * est
    { cam with loc := cam.loc + delta • (-fwd) }

/-- _headless_fit_z_only (cam_fit.py lines 178-246): no-op on an empty cloud;
otherwise bracket then bisect along the forward axis, with final_t = hi_t;
when the bracket search exhausts its 40 iterations the camera is moved to the
last tested offset; either way the tiny framing-scale dolly runs last. -/
def headless_fit_z_only (fm : FloatModel) (cam : Camera) (render : RenderSettings)
    (pts : List Vec3) (framing_scale : Rat) : Camera :=
  if pts = [] then cam
  else
    let br := fitBracket fm cam render pts
    match br.found with
    | none =>
      tiny_margin_dolly { cam with loc := cam.loc + br.hiT • cam.fwd } framing_scale pts
    | some b =>
      let s := (fitBisect fm cam render pts b).1
      tiny_margin_dolly { cam with loc := cam.loc + s.hiT • cam.fwd } framing_scale pts

/-- The offsets (relative to the starting location, along fwd) at which
_headless_fit_z_only evaluates r_max_at, in evaluation order: cur is probed
at offset 0, then the bracket tests, then the bisection midpoints. -/
def fitProbes (fm : FloatModel) (cam : Camera) (render : RenderSettings)
    (pts : List Vec3) : List Rat :=
  if pts = [] then []
  else
    let br := fitBracket fm cam render pts
    match br.found with
    | none => 0 :: br.probes
    | some b => 0 :: (br.probes ++ (fitBisect fm cam render pts b).2)

/-- Selection state of the view layer: the selected object ids and the
active object. -/
structure SelState where
  selected : List Nat
  active : Option Nat
  deriving DecidableEq

/-- o.select_set(True): adds the object to the selection (idempotent). -/
def selectOn (sel : List Nat) (o : Nat) : List Nat :=
  if o ∈ sel then sel else sel ++ [o]

/-- o.select_set(False): removes the object from the selection. -/
def selectOff (sel : List Nat) (o : Nat) : List Nat :=
  sel.filter (fun x => decide (x ≠ o))

/-- Scene state touched by fit_camera_to_objects: the scene's active camera
(by object id), the selection, and whether a VIEW_3D area with a usable
override exists (collapsing the win/area/region search and the override
construction of cam_fit.py lines 103-147 into one flag). -/
structure Scene where
  sceneCamera : Option Nat
  sel : SelState
  viewOK : Bool
  deriving DecidableEq

/-- fit_camera_to_objects (cam_fit.py lines 250-319).  The two host operators
(bpy.ops.view3d.view_camera and camera_to_view_selected) are external; they
are modelled as arbitrary transformers of the camera and the selection
(their exceptions are caught by the source, so a raising operator is a
transformer describing whatever state it left).  camId is the id under which
the passed camera object is known to the scene. -/
def fit_camera_to_objects (fm : FloatModel)
    (opView opAlign : Camera × SelState → Camera × SelState)
    (camId : Nat) (cam : Camera) (scene : Scene) (render : RenderSettings)
    (objects : List SceneObject) (margin : Rat) (force_headless : Bool) :
    Camera × Scene :=
  if objects = [] then (cam, scene)
  else
    let scene1 := { scene with sceneCamera := some camId }
    let pts := world_points_evaluated objects
    if force_headless then (headless_fit_z_only fm cam render pts margin, scene1)
    else if scene1.viewOK then
      let prevActive := scene1.sel.active
      let prevSel := scene1.sel.selected
      let sel1 := prevSel.foldl selectOff scene1.sel.selected
      let sel2 := objects.foldl (fun s o => selectOn s o.id) sel1
      let act2 : Option Nat :=
        match objects.head? with
        | some o => some o.id
        | none => scene1.sel.active
      let camSelA := opView (cam, ⟨sel2, act2⟩)
      let camSelB := opAlign camSelA
      let cam3 := tiny_margin_dolly camSelB.1 margin pts
      let selR : SelState := ⟨prevSel.foldl selectOn (camSelB.2.selected.foldl selectOff camSelB.2.selected), prevActive⟩
      (cam3, { scene1 with sel := selR })
    else (headless_fit_z_only fm cam render pts margin, scene1)

/-- _is_render_candidate of cam_fit_ui.py (lines 9-16): meshes only. -/
def ui_is_render_candidate (o : SceneObject) : Bool :=
  if o.objType ≠ ObjType.MESH then false
  else if o.hide_render then false
  else if ¬ o.visible then false
  else true

/-- The expanding search of the UI dolly (cam_fit_ui.py lines 116-125):
step times 1.6 each miss, hi is set to the test offset whether or not the
target was crossed; crossing breaks.  he abstracts _screen_half_extent,
whose world_to_camera_view projection is a host utility. -/
def uiExpand (he : Camera → Rat) (cam : Camera) (origin dirVec : Vec3)
    (target base : Rat) : Nat → Rat → Rat → Rat
  | 0, hi, _ => hi
  | Nat.succ n, hi, step =>
    let test := hi + step
    let h := he { cam with loc := origin + test • dirVec }
    if (target < base ∧ h ≤ target) ∨ (target > base ∧ h ≥ target) then test
    else uiExpand he cam origin dirVec target base n test (step * (8/5))

/-- The bisection of the UI dolly (cam_fit_ui.py lines 127-134). -/
def uiBisect (he : Camera → Rat) (cam : Camera) (origin dirVec : Vec3)
    (target base : Rat) : Nat → Rat → Rat → Rat × Rat
  | 0, lo, hi => (lo, hi)
  | Nat.succ n, lo, hi =>
    let mid := (1/2) * (lo + hi)
    let h := he { cam with loc := origin + mid • dirVec }
    if (target < base ∧ h > target) ∨ (target > base ∧ h < target) then
      uiBisect he cam origin dirVec target base n mid hi
    else uiBisect he cam origin dirVec target base n lo mid

/-- fit_camera_ui (cam_fit_ui.py lines 67-138): deselects everything, keeps
only mesh candidates (returning early, selection left cleared, when there are
none), selects them, sets the active object and the scene camera, runs the
align operator, then Z-dollies to match the framing scale.  The selection is
never restored. -/
def fit_camera_ui (he : Camera → Rat)
    (opAlign : Camera × SelState → Camera × SelState)
    (camId : Nat) (cam : Camera) (scene : Scene) (objects : List SceneObject)
    (framing_scale : Rat) : Camera × Scene :=
  if ¬ scene.viewOK then (cam, scene)
  else
    let sel1 := scene.sel.selected.foldl selectOff scene.sel.selected
    let mesh_objs := objects.filter ui_is_render_candidate
    if mesh_objs = [] then (cam, { scene with sel := ⟨sel1, scene.sel.active⟩ })
    else
      let sel2 := mesh_objs.foldl (fun s o => selectOn s o.id) sel1
      let act2 : Option Nat :=
        match mesh_objs.head? with
        | some o => some o.id
        | none => scene.sel.active
      let scene1 := { scene with sceneCamera := some camId }
      let camSelB := opAlign (cam, ⟨sel2, act2⟩)
      let cam1 := camSelB.1
      let base := he cam1
      let cam2 :=
        if base > 1/1000000 ∧ |framing_scale - 1| ≥ 1/1000000 then
          let target := base / framing_scale
          let origin := cam1.loc
          let dirVec := if target < base then -cam1.fwd else cam1.fwd
          let hi := uiExpand he cam1 origin dirVec target base 24 0 (1/20)
          if hi > 0 then
            let lh := uiBisect he cam1 origin dirVec target base 28 0 hi
            { cam1 with loc := origin + lh.2 • dirVec }
          else { cam1 with loc := origin + hi • dirVec }
        else cam1
      (cam2, { scene1 with sel := camSelB.2 })

/-- Per-object contribution of the sampler, stated from the amended reading
of the spec: a render candidate whose evaluated object is a MESH and whose
to_mesh succeeded contributes its evaluated world-space vertices; a render
candidate of non-mesh evaluated type contributes the original object's
world-space bounding-box corners when present; a mesh whose extraction
failed, and a non-candidate, contribute nothing. -/
def sample_contribution (obj : SceneObject) : List Vec3 :=
  if ¬ is_render_candidate obj then []
  else if obj.evalType = ObjType.MESH then
    match obj.toMeshResult with
    | some vs => vs.map (fun v => obj.evalMatrixWorld.apply v)
    | none => []
  else match obj.boundBox with
    | some corners =>
      if corners = [] then [] else corners.map (fun c => obj.matrixWorld.apply c)
    | none => []

/-! ### Concrete fixtures used by witnesses and counterexamples -/

/-- Rational stub for the transcendental model: tan and atan both return 1/2
everywhere, radians(50) is stubbed by 7/8.  Every universal theorem holds for
an arbitrary model; the stub only feeds concrete evaluations. -/
def fmStub : FloatModel := ⟨fun _ => 1/2, fun _ => 1/2, 7/8⟩

/-- A perspective camera data block with nonzero angles. -/
def cdPersp : CamData :=
  ⟨CamType.PERSP, 50, 36, 24, SensorFit.AUTO, 1, 1, 1, 1/10, 100⟩

/-- An orthographic camera data block with ortho_scale 1. -/
def cdOrtho : CamData :=
  ⟨CamType.ORTHO, 50, 36, 24, SensorFit.AUTO, 1, 1, 1, 1/10, 100⟩

/-- A camera at the origin with the identity orientation: right = +x,
up = +y, fwd = -z (looking down world -Z). -/
def camIdent : Camera := ⟨⟨0,0,0⟩, ⟨1,0,0⟩, ⟨0,1,0⟩, ⟨0,0,-1⟩, cdPersp⟩

/-- The same pose with the orthographic data block. -/
def camOrtho : Camera := ⟨⟨0,0,0⟩, ⟨1,0,0⟩, ⟨0,1,0⟩, ⟨0,0,-1⟩, cdOrtho⟩

/-- Square 512x512 render settings. -/
def renderSquare : RenderSettings := ⟨512, 512, 100⟩

/-- A camera-plane rectangle of width 4 and height 2 at depth 5 in front of
camIdent / camOrtho. -/
def rectPts : List Vec3 := [⟨2,1,-5⟩, ⟨-2,1,-5⟩, ⟨-2,-1,-5⟩, ⟨2,-1,-5⟩]

/-- Identity world transform. -/
def affId : Aff := ⟨⟨1,0,0⟩, ⟨0,1,0⟩, ⟨0,0,1⟩, ⟨0,0,0⟩⟩

/-- Unit-cube corners, standing in for a bound_box. -/
def corners8 : List Vec3 :=
  [⟨0,0,0⟩, ⟨0,0,1⟩, ⟨0,1,1⟩, ⟨0,1,0⟩, ⟨1,0,0⟩, ⟨1,0,1⟩, ⟨1,1,1⟩, ⟨1,1,0⟩]

/-- A visible mesh object whose evaluated to_mesh raised (toMeshResult is
none) but which does have a bound_box. -/
def objMeshFail : SceneObject :=
  ⟨1, false, true, ObjType.MESH, ObjType.MESH, none, affId, affId, some corners8⟩

/-- A visible EMPTY object (render candidate for cam_fit.py, excluded by the
meshes-only filter of cam_fit_ui.py). -/
def objEmptyKind : SceneObject :=
  ⟨2, false, true, ObjType.EMPTY, ObjType.EMPTY, none, affId, affId, some [⟨0,0,0⟩]⟩

/-- Two points for the idempotence counterexample: one just off-axis at
depth 2 (the binding constraint) and one on-axis far away at depth 3e11
(which dominates the median depth estimate of the dolly). -/
def ptsTwo : List Vec3 := [⟨1, 0, -2⟩, ⟨0, 0, -300000000000⟩]

/-- A scene with no usable 3D viewport and empty selection. -/
def scNoView : Scene := ⟨none, ⟨[], none⟩, false⟩

/-- A scene with a usable 3D viewport in which object 7 is selected and
active. -/
def scView7 : Scene := ⟨none, ⟨[7], some 7⟩, true⟩

/-- Identity operator effect: the host operator left camera and selection as
it found them (for instance because it raised and the source caught it). -/
def opId : Camera × SelState → Camera × SelState := id

/-- A screen-half-extent oracle that is never consulted on the paths the
concrete theorems take. -/
def heZero : Camera → Rat := fun _ => 0

/-! ### Basic algebra of the embedding -/

@[simp] theorem vadd_def (a b : Vec3) : a + b = ⟨a.x + b.x, a.y + b.y, a.z + b.z⟩ := rfl

@[simp] theorem vsub_def (a b : Vec3) : a - b = ⟨a.x - b.x, a.y - b.y, a.z - b.z⟩ := rfl

@[simp] theorem vneg_def (a : Vec3) : -a = ⟨-a.x, -a.y, -a.z⟩ := rfl

@[simp] theorem vsmul_def (c : Rat) (v : Vec3) : c • v = ⟨c * v.x, c * v.y, c * v.z⟩ := rfl

/-- The framing-scale dolly never touches the orientation basis or the camera
data block. -/
theorem tiny_margin_dolly_frame (cam : Camera) (fs : Rat) (pts : List Vec3) :
    (tiny_margin_dolly cam fs pts).right = cam.right ∧
    (tiny_margin_dolly cam fs pts).up = cam.up ∧
    (tiny_margin_dolly cam fs pts).fwd = cam.fwd ∧
    (tiny_margin_dolly cam fs pts).data = cam.data := by
  unfold tiny_margin_dolly
  split <;> exact ⟨rfl, rfl, rfl, rfl⟩

/-- The headless fitter never touches the orientation basis or the camera
data block. -/
theorem headless_fit_frame (fm : FloatModel) (cam : Camera) (render : RenderSettings)
    (pts : List Vec3) (fs : Rat) :
    (headless_fit_z_only fm cam render pts fs).right = cam.right ∧
    (headless_fit_z_only fm cam render pts fs).up = cam.up ∧
    (headless_fit_z_only fm cam render pts fs).fwd = cam.fwd ∧
    (headless_fit_z_only fm cam render pts fs).data = cam.data := by
  unfold headless_fit_z_only
  by_cases hp : pts = []
  · simp [hp]
  · simp only [if_neg hp]
    cases hf : (fitBracket fm cam render pts).found <;>
      simp only [hf] <;> exact tiny_margin_dolly_frame _ _ _

/-- Claim C1: for every call of the core fitter (the headless solve, which
includes the framing-scale dolly, and the dolly itself when used standalone),
only the camera position is mutated: the rotation basis and the whole camera
data block (field of view, lens, sensor dimensions and fit policy,
ortho_scale, clipping planes) are identical before and after. -/
theorem fit_translates_camera_only (fm : FloatModel) (cam : Camera)
    (render : RenderSettings) (pts : List Vec3) (fs : Rat) :
    (headless_fit_z_only fm cam render pts fs).right = cam.right ∧
    (headless_fit_z_only fm cam render pts fs).up = cam.up ∧
    (headless_fit_z_only fm cam render pts fs).fwd = cam.fwd ∧
    (headless_fit_z_only fm cam render pts fs).data = cam.data ∧
    (tiny_margin_dolly cam fs pts).right = cam.right ∧
    (tiny_margin_dolly cam fs pts).up = cam.up ∧
    (tiny_margin_dolly cam fs pts).fwd = cam.fwd ∧
    (tiny_margin_dolly cam fs pts).data = cam.data := by
  obtain ⟨h1, h2, h3, h4⟩ := headless_fit_frame fm cam render pts fs
  obtain ⟨h5, h6, h7, h8⟩ := tiny_margin_dolly_frame cam fs pts
  exact ⟨h1, h2, h3, h4, h5, h6, h7, h8⟩

/-! ### Selection bookkeeping -/

theorem foldl_selectOff (l : List Nat) : ∀ acc : List Nat,
    List.foldl selectOff acc l = acc.filter (fun x => decide (x ∉ l)) := by
  induction l with
  | nil => intro acc; simp
  | cons a l ih =>
    intro acc
    have h1 : List.foldl selectOff acc (a :: l) = List.foldl selectOff (selectOff acc a) l := rfl
    rw [h1, ih]
    unfold selectOff
    rw [List.filter_filter]
    apply List.filter_congr
    intro x _
    by_cases hxa : x = a <;> by_cases hxl : x ∈ l <;> simp [hxa, hxl]

theorem foldl_selectOff_self (l : List Nat) : List.foldl selectOff l l = [] := by
  rw [foldl_selectOff]
  rw [List.filter_eq_nil_iff]
  intro a ha
  simp [ha]

theorem mem_selectOn (acc : List Nat) (a x : Nat) :
    x ∈ selectOn acc a ↔ x ∈ acc ∨ x = a := by
  unfold selectOn
  split
  · rename_i h
    constructor
    · exact fun hx => Or.inl hx
    · rintro (hx | rfl)
      · exact hx
      · exact h
  · simp

theorem mem_foldl_selectOn (l : List Nat) : ∀ (acc : List Nat) (x : Nat),
    x ∈ List.foldl selectOn acc l ↔ x ∈ acc ∨ x ∈ l := by
  induction l with
  | nil => intro acc x; simp
  | cons a l ih =>
    intro acc x
    have h1 : List.foldl selectOn acc (a :: l) = List.foldl selectOn (selectOn acc a) l := rfl
    rw [h1, ih, mem_selectOn]
    constructor
    · rintro ((hx | rfl) | hx)
      · exact Or.inl hx
      · exact Or.inr (List.mem_cons_self _ _)
      · exact Or.inr (List.mem_cons_of_mem _ hx)
    · rintro (hx | hx)
      · exact Or.inl (Or.inl hx)
      · rcases List.mem_cons.1 hx with rfl | hx
        · exact Or.inl (Or.inr rfl)
        · exact Or.inr hx

/-- Claim C8 (amended): fit_camera_to_objects leaves the selection state
(selected set and active object) exactly as it found it on every path,
whatever the two delegated operators do to camera and selection; its
delegation path restores the saved selection after the operators and the
dolly.  (fit_camera_ui, by contrast, never restores — see the
counterexample.) -/
theorem fit_selection_restored (fm : FloatModel)
    (opView opAlign : Camera × SelState → Camera × SelState)
    (camId : Nat) (cam : Camera) (scene : Scene) (render : RenderSettings)
    (objects : List SceneObject) (margin : Rat) (fh : Bool) :
    (fit_camera_to_objects fm opView opAlign camId cam scene render objects margin fh).2.sel.active
      = scene.sel.active
    ∧ ∀ x : Nat,
      (x ∈ (fit_camera_to_objects fm opView opAlign camId cam scene render objects margin fh).2.sel.selected
        ↔ x ∈ scene.sel.selected) := by
  unfold fit_camera_to_objects
  by_cases ho : objects = []
  · simp [ho]
  · simp only [if_neg ho]
    by_cases hfh : fh = true
    · simp [hfh]
    · simp only [Bool.not_eq_true] at hfh
      subst hfh
      by_cases hv : scene.viewOK = true
      · simp only [hv, Bool.false_eq_true, if_false, if_true]
        constructor
        · trivial
        · intro x
          show x ∈ List.foldl selectOn (List.foldl selectOff _ _) _ ↔ _
          rw [foldl_selectOff_self, mem_foldl_selectOn]
          simp
      · simp [hv]

/-- Counterexample to claim C8 as stated: fit_camera_ui takes the
host-operator delegation path, clears the selection, and on the
no-mesh-candidates exit returns with the selection still cleared — the prior
selection [7] is not restored on that exit path. -/
theorem fit_camera_ui_clears_selection :
    (fit_camera_ui heZero opId 3 camIdent scView7 [objEmptyKind] 1).2.sel.selected = []
    ∧ scView7.sel.selected = [7]
    ∧ ([] : List Nat) ≠ [7] := by
  refine ⟨rfl, rfl, by simp⟩

/-- Claim C10: fit_camera_to_objects with an empty objects list touches
nothing; with a non-empty list it sets the scene's active camera to the
passed camera on every path, including when the sampled cloud is empty. -/
theorem fit_sets_scene_camera (fm : FloatModel)
    (opView opAlign : Camera × SelState → Camera × SelState)
    (camId : Nat) (cam : Camera) (scene : Scene) (render : RenderSettings)
    (objects : List SceneObject) (margin : Rat) (fh : Bool) :
    (objects = [] →
      fit_camera_to_objects fm opView opAlign camId cam scene render objects margin fh
        = (cam, scene))
    ∧ (objects ≠ [] →
      (fit_camera_to_objects fm opView opAlign camId cam scene render objects margin fh).2.sceneCamera
        = some camId) := by
  constructor
  · intro h
    simp [fit_camera_to_objects, h]
  · intro h
    unfold fit_camera_to_objects
    simp only [if_neg h]
    by_cases hfh : fh = true
    · simp [hfh]
    · simp only [Bool.not_eq_true] at hfh
      subst hfh
      by_cases hv : scene.viewOK = true
      · simp [hv]
      · simp [hv]

/-- Witness for C10 at concrete inputs: one EMPTY-kind object (non-empty
list) does set the scene camera to id 3; the empty list leaves the whole
state untouched. -/
theorem fit_sets_scene_camera_witness :
    (fit_camera_to_objects fmStub opId opId 3 camIdent scNoView renderSquare [objEmptyKind] 1 true).2.sceneCamera
      = some 3
    ∧ fit_camera_to_objects fmStub opId opId 3 camIdent scNoView renderSquare [] 1 true
      = (camIdent, scNoView) :=
  ⟨(fit_sets_scene_camera fmStub opId opId 3 camIdent scNoView renderSquare [objEmptyKind] 1 true).2
      (by simp),
   (fit_sets_scene_camera fmStub opId opId 3 camIdent scNoView renderSquare [] 1 true).1 rfl⟩

/-- Claim C6 (amended): for an orthographic camera the fitter does not set
ortho_scale at all — _get_fov_xy yields (None, None), the solve falls back to
the 50-degree default field of view on both axes, and the camera data block
(ortho_scale included) is returned unchanged. -/
theorem fit_ortho_unchanged (fm : FloatModel) (cam : Camera) (render : RenderSettings)
    (pts : List Vec3) (fs : Rat) (h : cam.data.ctype = CamType.ORTHO) :
    get_fov_xy fm cam.data render = (none, none)
    ∧ (headless_fit_z_only fm cam render pts fs).data.ortho_scale = cam.data.ortho_scale
    ∧ fitTanFx fm cam render = max (fm.rtan (fm.rad50 * (1/2))) (1/1000000000)
    ∧ fitTanFy fm cam render = max (fm.rtan (fm.rad50 * (1/2))) (1/1000000000) := by
  have hg : get_fov_xy fm cam.data render = (none, none) := by
    simp [get_fov_xy, h]
  refine ⟨hg, ?_, ?_, ?_⟩
  · rw [(headless_fit_frame fm cam render pts fs).2.2.2]
  · simp [fitTanFx, hg, pyOrF]
  · simp [fitTanFy, hg, pyOrF]

/-- Witness for the amended C6 at a concrete orthographic camera and
rectangle. -/
theorem fit_ortho_unchanged_witness :
    camOrtho.data.ctype = CamType.ORTHO
    ∧ (get_fov_xy fmStub camOrtho.data renderSquare = (none, none)
      ∧ (headless_fit_z_only fmStub camOrtho renderSquare rectPts 1).data.ortho_scale
          = camOrtho.data.ortho_scale
      ∧ fitTanFx fmStub camOrtho renderSquare = max (fmStub.rtan (fmStub.rad50 * (1/2))) (1/1000000000)
      ∧ fitTanFy fmStub camOrtho renderSquare = max (fmStub.rtan (fmStub.rad50 * (1/2))) (1/1000000000)) :=
  ⟨rfl, fit_ortho_unchanged fmStub camOrtho renderSquare rectPts 1 rfl⟩

/-- Counterexample to claim C6 as stated: for the orthographic camera with
ortho_scale 1 and the width-4, height-2 rectangle rectPts at aspect ratio 1
and framing scale 1, the claim demands ortho_scale becomes max(4, 2*1) = 4;
the fit leaves it at 1. -/
theorem fit_ortho_counterexample :
    (headless_fit_z_only fmStub camOrtho renderSquare rectPts 1).data.ortho_scale = 1
    ∧ max (4 : Rat) (2 * 1) = 4
    ∧ (1 : Rat) ≠ 4 := by
  refine ⟨?_, by norm_num, by norm_num⟩
  rw [(headless_fit_frame fmStub camOrtho renderSquare rectPts 1).2.2.2]
  rfl

/-- The loop body of _world_points_evaluated appends exactly the per-object
contribution. -/
theorem sample_step_eq (pts : List Vec3) (obj : SceneObject) :
    (if ¬ is_render_candidate obj then pts
      else if obj.evalType = ObjType.MESH then
        match obj.toMeshResult with
        | some vs => pts ++ vs.map (fun v => obj.evalMatrixWorld.apply v)
        | none => pts
      else match obj.boundBox with
        | some corners =>
          if corners = [] then pts
          else pts ++ corners.map (fun c => obj.matrixWorld.apply c)
        | none => pts)
    = pts ++ sample_contribution obj := by
  unfold sample_contribution
  by_cases hc : is_render_candidate obj
  · simp only [hc]
    by_cases hm : obj.evalType = ObjType.MESH
    · simp only [hm]
      cases obj.toMeshResult <;> simp
    · simp only [hm]
      cases hb : obj.boundBox with
      | none => simp
      | some corners =>
        by_cases he : corners = [] <;> simp [he]
  · simp [hc]

/-- Claim C7 (amended): the sampler's output is the concatenation, over the
input objects in order, of sample_contribution: evaluated world-space
vertices for candidate meshes whose extraction succeeded, world-space
bounding-box corners for candidate non-mesh objects, and nothing for
failed-extraction meshes or non-candidates. -/
theorem sample_points_characterization (objs : List SceneObject) :
    world_points_evaluated objs = objs.flatMap sample_contribution := by
  unfold world_points_evaluated
  suffices h : ∀ (l : List SceneObject) (acc : List Vec3),
      List.foldl (fun pts obj =>
        if ¬ is_render_candidate obj then pts
        else if obj.evalType = ObjType.MESH then
          match obj.toMeshResult with
          | some vs => pts ++ vs.map (fun v => obj.evalMatrixWorld.apply v)
          | none => pts
        else match obj.boundBox with
          | some corners =>
            if corners = [] then pts
            else pts ++ corners.map (fun c => obj.matrixWorld.apply c)
          | none => pts) acc l = acc ++ l.flatMap sample_contribution by
    simpa using h objs []
  intro l
  induction l with
  | nil => intro acc; simp
  | cons o l ih =>
    intro acc
    rw [List.foldl_cons, sample_step_eq, ih, List.flatMap_cons, List.append_assoc]

/-- Counterexample to claim C7 as stated: a render-candidate mesh whose
evaluated-mesh extraction failed contributes nothing at all, not its eight
bounding-box corners. -/
theorem sampler_mesh_failure_counterexample :
    is_render_candidate objMeshFail = true
    ∧ objMeshFail.evalType = ObjType.MESH
    ∧ objMeshFail.toMeshResult = none
    ∧ objMeshFail.boundBox = some corners8
    ∧ world_points_evaluated [objMeshFail] = []
    ∧ corners8.map (fun c => objMeshFail.matrixWorld.apply c) ≠ [] := by
  refine ⟨rfl, rfl, rfl, rfl, rfl, by simp [corners8]⟩

/-! ### Search-loop machinery -/

theorem fitTanFx_pos (fm : FloatModel) (cam : Camera) (render : RenderSettings) :
    0 < fitTanFx fm cam render :=
  lt_of_lt_of_le (by norm_num) (le_max_right _ _)

theorem fitTanFy_pos (fm : FloatModel) (cam : Camera) (render : RenderSettings) :
    0 < fitTanFy fm cam render :=
  lt_of_lt_of_le (by norm_num) (le_max_right _ _)

/-- The framing-scale dolly is the identity at framing scale 1. -/
theorem tiny_margin_dolly_one (cam : Camera) (pts : List Vec3) :
    tiny_margin_dolly cam 1 pts = cam := by
  unfold tiny_margin_dolly
  norm_num

theorem headless_eq_of_found (fm : FloatModel) (cam : Camera) (render : RenderSettings)
    (pts : List Vec3) (fs : Rat) (b : Bracket) (hne : pts ≠ [])
    (hbr : (fitBracket fm cam render pts).found = some b) :
    headless_fit_z_only fm cam render pts fs
      = tiny_margin_dolly
          { cam with loc := cam.loc + ((fitBisect fm cam render pts b).1).hiT • cam.fwd } fs pts := by
  unfold headless_fit_z_only
  simp only [if_neg hne, hbr]

theorem headless_eq_of_none (fm : FloatModel) (cam : Camera) (render : RenderSettings)
    (pts : List Vec3) (fs : Rat) (hne : pts ≠ [])
    (hbr : (fitBracket fm cam render pts).found = none) :
    headless_fit_z_only fm cam render pts fs
      = tiny_margin_dolly
          { cam with loc := cam.loc + (fitBracket fm cam render pts).hiT • cam.fwd } fs pts := by
  unfold headless_fit_z_only
  simp only [if_neg hne, hbr]

theorem add_smul_smul (w v : Vec3) (a b : Rat) :
    (w + a • v) + b • v = w + (a + b) • v := by
  simp only [vadd_def, vsmul_def, Vec3.mk.injEq]
  refine ⟨by ring, by ring, by ring⟩

/-- Translating the camera along its forward axis shifts camera space by a
pure depth offset, provided the basis is orthonormal. -/
theorem camSpace_shift (cam : Camera) (p : Vec3) (t : Rat)
    (hf : dot cam.fwd cam.fwd = 1) (hr : dot cam.right cam.fwd = 0)
    (hu : dot cam.up cam.fwd = 0) :
    camSpace cam (cam.loc + t • cam.fwd) p
      = ⟨(camSpace cam cam.loc p).x, (camSpace cam cam.loc p).y,
          (camSpace cam cam.loc p).z + t⟩ := by
  unfold camSpace
  unfold dot at hf hr hu ⊢
  simp only [vadd_def, vsmul_def, vsub_def, Vec3.mk.injEq]
  refine ⟨by linear_combination (-t) * hr, by linear_combination (-t) * hu,
    by linear_combination t * hf⟩

/-- The probed extent function of a forward-translated camera is the shifted
extent function of the original camera. -/
theorem fitR_shift (fm : FloatModel) (cam : Camera) (render : RenderSettings)
    (pts : List Vec3) (T t : Rat) :
    fitR fm { cam with loc := cam.loc + T • cam.fwd } render pts t
      = fitR fm cam render pts (T + t) := by
  show r_max_at cam pts (fitTanFx fm cam render) (fitTanFy fm cam render)
      ((cam.loc + T • cam.fwd) + t • cam.fwd)
    = r_max_at cam pts (fitTanFx fm cam render) (fitTanFy fm cam render)
      (cam.loc + (T + t) • cam.fwd)
  rw [add_smul_smul]

/-- The accumulator only grows along the r_max_at fold. -/
theorem r_max_at_foldl_ge (cam : Camera) (A B : Rat) (loc : Vec3) :
    ∀ (l : List Vec3) (a : Rat),
      a ≤ List.foldl (fun rmax p =>
        let cp := camSpace cam loc p
        let d := max (1/1000000000) (-cp.z)
        max (max rmax (|cp.x| / (d * A))) (|cp.y| / (d * B))) a l := by
  intro l
  induction l with
  | nil => intro a; simp
  | cons p l ih =>
    intro a
    refine le_trans ?_ (ih _)
    exact le_trans (le_max_left _ _) (le_max_left _ _)

theorem r_max_at_nonneg (cam : Camera) (pts : List Vec3) (A B : Rat) (loc : Vec3) :
    0 ≤ r_max_at cam pts A B loc :=
  r_max_at_foldl_ge cam A B loc pts 0

/-- Monotonicity of the probed extent in the forward offset: moving the
camera forward can only increase every clamped normalized extent. -/
theorem fitR_mono (fm : FloatModel) (cam : Camera) (render : RenderSettings)
    (pts : List Vec3)
    (hf : dot cam.fwd cam.fwd = 1) (hr : dot cam.right cam.fwd = 0)
    (hu : dot cam.up cam.fwd = 0)
    {t₁ t₂ : Rat} (h : t₁ ≤ t₂) :
    fitR fm cam render pts t₁ ≤ fitR fm cam render pts t₂ := by
  have hA := fitTanFx_pos fm cam render
  have hB := fitTanFy_pos fm cam render
  unfold fitR r_max_at
  suffices haux : ∀ (l : List Vec3) (a₁ a₂ : Rat), a₁ ≤ a₂ →
      List.foldl (fun rmax p =>
        let cp := camSpace cam (cam.loc + t₁ • cam.fwd) p
        let d := max (1/1000000000) (-cp.z)
        max (max rmax (|cp.x| / (d * fitTanFx fm cam render)))
          (|cp.y| / (d * fitTanFy fm cam render))) a₁ l
      ≤ List.foldl (fun rmax p =>
        let cp := camSpace cam (cam.loc + t₂ • cam.fwd) p
        let d := max (1/1000000000) (-cp.z)
        max (max rmax (|cp.x| / (d * fitTanFx fm cam render)))
          (|cp.y| / (d * fitTanFy fm cam render))) a₂ l from
    haux pts 0 0 le_rfl
  intro l
  induction l with
  | nil => intro a₁ a₂ ha; simpa using ha
  | cons p l ih =>
    intro a₁ a₂ ha
    rw [List.foldl_cons, List.foldl_cons]
    apply ih
    simp only [camSpace_shift cam p t₁ hf hr hu, camSpace_shift cam p t₂ hf hr hu]
    have hd₂pos : (0:Rat) < max (1/1000000000) (-((camSpace cam cam.loc p).z + t₂)) :=
      lt_of_lt_of_le (by norm_num) (le_max_left _ _)
    have hdle : max (1/1000000000 : Rat) (-((camSpace cam cam.loc p).z + t₂))
        ≤ max (1/1000000000) (-((camSpace cam cam.loc p).z + t₁)) :=
      max_le_max le_rfl (by linarith)
    refine max_le_max (max_le_max ha ?_) ?_
    · apply div_le_div_of_nonneg_left (abs_nonneg _) (by positivity) ?_
      exact mul_le_mul_of_nonneg_right hdle (le_of_lt hA)
    · apply div_le_div_of_nonneg_left (abs_nonneg _) (by positivity) ?_
      exact mul_le_mul_of_nonneg_right hdle (le_of_lt hB)

/-- When the bracket loop never crosses, hi_t accumulates every doubled step:
the net offset is step times 2^fuel minus 1, forward or backward. -/
theorem bracketGo_none_hiT (f : Rat → Rat) (goF : Bool) :
    ∀ (fuel : Nat) (hiT hiV step : Rat),
      (bracketGo f goF fuel hiT hiV step).found = none →
      (bracketGo f goF fuel hiT hiV step).hiT
        = hiT + (if goF then step * (2^fuel - 1) else -(step * (2^fuel - 1))) := by
  intro fuel
  induction fuel with
  | zero =>
    intro hiT hiV step _
    cases goF <;> simp [bracketGo]
  | succ n ih =>
    intro hiT hiV step h
    by_cases hc : crossedB goF (f (hiT + (if goF then step else -step))) = true
    · exfalso
      unfold bracketGo at h
      simp only [hc, if_true] at h
      exact Option.some_ne_none _ h
    · unfold bracketGo at h ⊢
      simp only [Bool.not_eq_true] at hc
      simp only [hc, Bool.false_eq_true, if_false] at h ⊢
      rw [ih _ _ _ h]
      cases goF <;> simp <;> ring

/-- If the crossing test fails at every offset, the bracket search fails. -/
theorem bracketGo_none_of_uncrossed (f : Rat → Rat) (goF : Bool)
    (hall : ∀ t : Rat, crossedB goF (f t) = false) :
    ∀ (fuel : Nat) (hiT hiV step : Rat),
      (bracketGo f goF fuel hiT hiV step).found = none := by
  intro fuel
  induction fuel with
  | zero => intro hiT hiV step; rfl
  | succ n ih =>
    intro hiT hiV step
    unfold bracketGo
    simp only [hall, Bool.false_eq_true, if_false]
    exact ih _ _ _

theorem one_le_two_pow (n : Nat) : (1:Rat) ≤ 2^n := by
  induction n with
  | zero => norm_num
  | succ k ih =>
    rw [pow_succ]
    nlinarith

/-- Forward bracket invariants: starting below the target, a found bracket
has its lo strictly below and its hi at or above the target, with width at
most step times 2^fuel. -/
theorem bracketGo_found_forward (f : Rat → Rat) :
    ∀ (fuel : Nat) (hiT hiV step : Rat) (b : Bracket), 0 < step → f hiT < 1 →
      (bracketGo f true fuel hiT hiV step).found = some b →
      f b.loT < 1 ∧ 1 ≤ f b.hiT ∧ b.hiT - b.loT ≤ step * 2^fuel := by
  intro fuel
  induction fuel with
  | zero => intro hiT hiV step b _ _ h; exact absurd h (by simp [bracketGo])
  | succ n ih =>
    intro hiT hiV step b hstep hlo h
    unfold bracketGo at h
    simp only [reduceIte] at h
    split at h
    · rename_i hc
      have hb : (⟨hiT, hiT + step, hiV, f (hiT + step)⟩ : Bracket) = b := by
        simpa using h
      subst hb
      have hcross : (1:Rat) ≤ f (hiT + step) := by
        simpa [crossedB] using hc
      refine ⟨hlo, hcross, ?_⟩
      have h2 : (1:Rat) ≤ 2^(n+1) := one_le_two_pow (n+1)
      have h3 : (0:Rat) ≤ step * (2^(n+1) - 1) := by nlinarith
      have h4 : step * (2^(n+1) - 1) = step * 2^(n+1) - step := by ring
      show hiT + step - hiT ≤ step * 2^(n+1)
      linarith
    · rename_i hc
      have hlt : f (hiT + step) < 1 := by
        have h2 : ¬ ((1:Rat) ≤ f (hiT + step)) := by
          simpa [crossedB] using hc
        linarith [not_le.1 h2]
      obtain ⟨h1, h2, h3⟩ := ih (hiT + step) (f (hiT + step)) (step * 2) b
        (by positivity) hlt (by simpa using h)
      refine ⟨h1, h2, le_trans h3 ?_⟩
      rw [pow_succ]
      nlinarith [h3]

/-- Backward bracket invariants: starting at or above the target, a found
bracket has its lo at or above and its hi at or below the target, with width
at most step times 2^fuel. -/
theorem bracketGo_found_backward (f : Rat → Rat) :
    ∀ (fuel : Nat) (hiT hiV step : Rat) (b : Bracket), 0 < step → 1 ≤ f hiT →
      (bracketGo f false fuel hiT hiV step).found = some b →
      1 ≤ f b.loT ∧ f b.hiT ≤ 1 ∧ b.loT - b.hiT ≤ step * 2^fuel := by
  intro fuel
  induction fuel with
  | zero => intro hiT hiV step b _ _ h; exact absurd h (by simp [bracketGo])
  | succ n ih =>
    intro hiT hiV step b hstep hlo h
    unfold bracketGo at h
    simp only [Bool.false_eq_true, if_false] at h
    split at h
    · rename_i hc
      have hb : (⟨hiT, hiT + -step, hiV, f (hiT + -step)⟩ : Bracket) = b := by
        simpa using h
      subst hb
      have hcross : f (hiT + -step) ≤ 1 := by
        simpa [crossedB] using hc
      refine ⟨hlo, hcross, ?_⟩
      have h2 : (1:Rat) ≤ 2^(n+1) := one_le_two_pow (n+1)
      have h3 : (0:Rat) ≤ step * (2^(n+1) - 1) := by nlinarith
      have h4 : step * (2^(n+1) - 1) = step * 2^(n+1) - step := by ring
      show hiT - (hiT + -step) ≤ step * 2^(n+1)
      linarith
    · rename_i hc
      have hlt : 1 ≤ f (hiT + -step) := by
        have h2 : ¬ (f (hiT + -step) ≤ 1) := by
          simpa [crossedB] using hc
        linarith [not_le.1 h2]
      obtain ⟨h1, h2, h3⟩ := ih (hiT + -step) (f (hiT + -step)) (step * 2) b
        (by positivity) hlt (by simpa using h)
      refine ⟨h1, h2, le_trans h3 ?_⟩
      rw [pow_succ]
      nlinarith [h3]

/-- If the extent stays strictly below the target at every offset the
forward bracket search can reach, it fails to bracket. -/
theorem bracketGo_none_forward_bounded (f : Rat → Rat) :
    ∀ (fuel : Nat) (hiT hiV step : Rat), 0 < step →
      (∀ t : Rat, t ≤ hiT + step * (2^fuel - 1) → f t < 1) →
      (bracketGo f true fuel hiT hiV step).found = none := by
  intro fuel
  induction fuel with
  | zero => intro hiT hiV step _ _; rfl
  | succ n ih =>
    intro hiT hiV step hstep hall
    unfold bracketGo
    simp only [reduceIte]
    have h2 : (2:Rat) ≤ 2^(n+1) := by
      rw [pow_succ]
      nlinarith [one_le_two_pow n]
    have htest : f (hiT + step) < 1 := by
      apply hall
      have h3 : (0:Rat) ≤ step * (2^(n+1) - 2) := by nlinarith
      have h4 : step * (2^(n+1) - 2) = step * (2^(n+1) - 1) - step := by ring
      linarith
    have hc : crossedB true (f (hiT + step)) = false := by
      simp only [crossedB, reduceIte, decide_eq_false_iff_not, not_le]
      linarith
    rw [hc]
    simp only [Bool.false_eq_true, if_false]
    show (bracketGo f true n (hiT + step) (f (hiT + step)) (step * 2)).found = none
    apply ih (hiT + step) (f (hiT + step)) (step * 2) (by positivity)
    intro t ht
    apply hall
    have heq : (hiT + step) + step * 2 * (2^n - 1) = hiT + step * (2^(n+1) - 1) := by
      rw [pow_succ]
      ring
    linarith [ht, heq.symm.le]

/-- A first-iteration crossing returns the bracket (previous hi, first test)
immediately. -/
theorem bracketGo_cross_first (f : Rat → Rat) (goF : Bool) (n : Nat)
    (hiT hiV step : Rat)
    (hc : crossedB goF (f (hiT + (if goF then step else -step))) = true) :
    bracketGo f goF (n+1) hiT hiV step
      = ⟨some ⟨hiT, hiT + (if goF then step else -step), hiV,
            f (hiT + (if goF then step else -step))⟩,
          hiT + (if goF then step else -step),
          [hiT + (if goF then step else -step)]⟩ := by
  unfold bracketGo
  simp only [hc, if_true]

/-- Forward bisection invariants: the lo endpoint stays strictly below the
target, the hi endpoint at or above it, and the signed width is divided by
2^fuel. -/
theorem bisectGo_forward (f : Rat → Rat) :
    ∀ (fuel : Nat) (s : Bisect4), f s.loT < 1 → 1 ≤ f s.hiT →
      f (bisectGo f true fuel s).1.loT < 1 ∧ 1 ≤ f (bisectGo f true fuel s).1.hiT ∧
      (bisectGo f true fuel s).1.hiT - (bisectGo f true fuel s).1.loT
        = (s.hiT - s.loT) / 2^fuel := by
  intro fuel
  induction fuel with
  | zero => intro s hlo hhi; exact ⟨hlo, hhi, by simp [bisectGo]⟩
  | succ n ih =>
    intro s hlo hhi
    unfold bisectGo
    by_cases hv : lowSideB true (f ((1/2) * (s.loT + s.hiT))) = true
    · simp only [hv, if_true]
      have hmid : f ((1/2) * (s.loT + s.hiT)) < 1 := by
        simpa [lowSideB] using hv
      obtain ⟨h1, h2, h3⟩ := ih ⟨(1/2) * (s.loT + s.hiT), s.hiT, f _, s.hiV⟩ hmid hhi
      refine ⟨h1, h2, ?_⟩
      rw [h3]
      show (s.hiT - (1/2) * (s.loT + s.hiT)) / 2^n = _
      rw [pow_succ]
      field_simp
      ring
    · simp only [Bool.not_eq_true] at hv
      simp only [hv, Bool.false_eq_true, if_false]
      have hmid : 1 ≤ f ((1/2) * (s.loT + s.hiT)) := by
        have h2 := hv
        simp only [lowSideB, if_true, decide_eq_false_iff_not, not_lt] at h2
        exact h2
      obtain ⟨h1, h2, h3⟩ := ih ⟨s.loT, (1/2) * (s.loT + s.hiT), s.loV, f _⟩ hlo hmid
      refine ⟨h1, h2, ?_⟩
      rw [h3]
      show ((1/2) * (s.loT + s.hiT) - s.loT) / 2^n = _
      rw [pow_succ]
      field_simp
      ring

/-- Backward bisection invariants. -/
theorem bisectGo_backward (f : Rat → Rat) :
    ∀ (fuel : Nat) (s : Bisect4), 1 ≤ f s.loT → f s.hiT ≤ 1 →
      1 ≤ f (bisectGo f false fuel s).1.loT ∧ f (bisectGo f false fuel s).1.hiT ≤ 1 ∧
      (bisectGo f false fuel s).1.loT - (bisectGo f false fuel s).1.hiT
        = (s.loT - s.hiT) / 2^fuel := by
  intro fuel
  induction fuel with
  | zero => intro s hlo hhi; exact ⟨hlo, hhi, by simp [bisectGo]⟩
  | succ n ih =>
    intro s hlo hhi
    unfold bisectGo
    by_cases hv : lowSideB false (f ((1/2) * (s.loT + s.hiT))) = true
    · simp only [hv, if_true]
      have hmid : 1 ≤ f ((1/2) * (s.loT + s.hiT)) := by
        have h2 := hv
        simp only [lowSideB, Bool.false_eq_true, if_false, decide_eq_true_eq] at h2
        exact le_of_lt h2
      obtain ⟨h1, h2, h3⟩ := ih ⟨(1/2) * (s.loT + s.hiT), s.hiT, f _, s.hiV⟩ hmid hhi
      refine ⟨h1, h2, ?_⟩
      rw [h3]
      show ((1/2) * (s.loT + s.hiT) - s.hiT) / 2^n = _
      rw [pow_succ]
      field_simp
      ring
    · simp only [Bool.not_eq_true] at hv
      simp only [hv, Bool.false_eq_true, if_false]
      have hmid : f ((1/2) * (s.loT + s.hiT)) ≤ 1 := by
        have h2 := hv
        simp only [lowSideB, Bool.false_eq_true, if_false, decide_eq_false_iff_not, not_lt] at h2
        exact h2
      obtain ⟨h1, h2, h3⟩ := ih ⟨s.loT, (1/2) * (s.loT + s.hiT), s.loV, f _⟩ hlo hmid
      refine ⟨h1, h2, ?_⟩
      rw [h3]
      show (s.loT - (1/2) * (s.loT + s.hiT)) / 2^n = _
      rw [pow_succ]
      field_simp
      ring

/-- The bisection endpoints never leave the interval spanned by the initial
endpoints. -/
theorem bisectGo_range (f : Rat → Rat) (goF : Bool) :
    ∀ (fuel : Nat) (s : Bisect4) (a c : Rat),
      a ≤ s.loT → s.loT ≤ c → a ≤ s.hiT → s.hiT ≤ c →
      a ≤ (bisectGo f goF fuel s).1.hiT ∧ (bisectGo f goF fuel s).1.hiT ≤ c := by
  intro fuel
  induction fuel with
  | zero => intro s a c _ _ h3 h4; exact ⟨h3, h4⟩
  | succ n ih =>
    intro s a c h1 h2 h3 h4
    unfold bisectGo
    have hm1 : a ≤ (1/2) * (s.loT + s.hiT) := by linarith
    have hm2 : (1/2) * (s.loT + s.hiT) ≤ c := by linarith
    by_cases hv : lowSideB goF (f ((1/2) * (s.loT + s.hiT))) = true
    · simp only [hv, if_true]
      exact ih ⟨(1/2) * (s.loT + s.hiT), s.hiT, f _, s.hiV⟩ a c hm1 hm2 h3 h4
    · simp only [Bool.not_eq_true] at hv
      simp only [hv, Bool.false_eq_true, if_false]
      exact ih ⟨s.loT, (1/2) * (s.loT + s.hiT), s.loV, f _⟩ a c h1 h2 hm1 hm2

/-! ### On-axis degenerate inputs -/

/-- A single point on the optical axis of the identity camera has zero
lateral offset at every forward offset, so the probed extent is identically
zero — for any float model and any depth (in front or behind). -/
theorem fitR_on_axis (fm : FloatModel) (z t : Rat) :
    fitR fm camIdent renderSquare [⟨0, 0, z⟩] t = 0 := by
  unfold fitR r_max_at
  simp only [List.foldl_cons, List.foldl_nil]
  norm_num [camSpace, dot, camIdent]

theorem fitGoForward_on_axis (fm : FloatModel) (z : Rat) :
    fitGoForward fm camIdent renderSquare [⟨0, 0, z⟩] = true := by
  unfold fitGoForward fitCur
  rw [fitR_on_axis]
  simp

theorem fitBracket_on_axis_none (fm : FloatModel) (z : Rat) :
    (fitBracket fm camIdent renderSquare [⟨0, 0, z⟩]).found = none := by
  unfold fitBracket
  rw [fitGoForward_on_axis]
  apply bracketGo_none_of_uncrossed
  intro t
  rw [fitR_on_axis]
  simp only [crossedB, if_true, decide_eq_false_iff_not, not_le]
  norm_num

/-- The first offset at which the fitter ever evaluates the extent is 0, the
unmoved starting position. -/
theorem fitProbes_head (fm : FloatModel) (cam : Camera) (render : RenderSettings)
    (pts : List Vec3) (hne : pts ≠ []) :
    (fitProbes fm cam render pts).head? = some 0 := by
  unfold fitProbes
  rw [if_neg hne]
  cases hfd : (fitBracket fm cam render pts).found <;> simp [hfd]

/-- On a single on-axis point the bracket search can never cross (the extent
is identically zero), so after 40 doublings the best-effort fallback moves
the identity camera forward by 0.1 * (2^40 - 1) along -z. -/
theorem headless_on_axis_loc (fm : FloatModel) (z : Rat) :
    (headless_fit_z_only fm camIdent renderSquare [⟨0, 0, z⟩] 1).loc
      = ⟨0, 0, -((1/10) * (2^40 - 1))⟩ := by
  have hnf := fitBracket_on_axis_none fm z
  rw [headless_eq_of_none fm camIdent renderSquare _ 1 (by simp) hnf,
    tiny_margin_dolly_one]
  have h1 : (fitBracket fm camIdent renderSquare [⟨0, 0, z⟩]).hiT
      = 0 + (if fitGoForward fm camIdent renderSquare [⟨0, 0, z⟩]
              then (1/10) * ((2:Rat)^40 - 1) else -((1/10) * ((2:Rat)^40 - 1))) :=
    bracketGo_none_hiT (fitR fm camIdent renderSquare [⟨0, 0, z⟩])
      (fitGoForward fm camIdent renderSquare [⟨0, 0, z⟩]) 40 0
      (fitCur fm camIdent renderSquare [⟨0, 0, z⟩]) (1/10) hnf
  rw [fitGoForward_on_axis] at h1
  simp only [if_true, zero_add] at h1
  show camIdent.loc + (fitBracket fm camIdent renderSquare [⟨0, 0, z⟩]).hiT • camIdent.fwd = _
  rw [h1]
  show (⟨0,0,0⟩ : Vec3) + ((1/10) * ((2:Rat)^40 - 1)) • (⟨0,0,-1⟩ : Vec3) = _
  simp only [vadd_def, vsmul_def, Vec3.mk.injEq]
  refine ⟨by ring, by ring, by ring⟩

/-- Claim C2 evidence (code bug): for a single point exactly on the optical
axis at depth 10 in front of the identity camera, with framingScale = 1, the
solve does not produce zero translation: r_max is identically zero, the
bracket search can never cross its target, and the best-effort fallback
translates the camera forward by 0.1 * (2^40 - 1), about 1.1e11 units,
instead of leaving it in place. -/
theorem fit_on_axis_runaway :
    camIdent.loc = ⟨0, 0, 0⟩
    ∧ (fitBracket fmStub camIdent renderSquare [⟨0, 0, -10⟩]).found = none
    ∧ (headless_fit_z_only fmStub camIdent renderSquare [⟨0, 0, -10⟩] 1).loc
        = ⟨0, 0, -((1/10) * (2^40 - 1))⟩
    ∧ (headless_fit_z_only fmStub camIdent renderSquare [⟨0, 0, -10⟩] 1).loc
        ≠ camIdent.loc := by
  refine ⟨rfl, fitBracket_on_axis_none fmStub (-10), headless_on_axis_loc fmStub (-10), ?_⟩
  rw [headless_on_axis_loc fmStub (-10)]
  show (⟨0, 0, -((1/10) * (2^40 - 1))⟩ : Vec3) ≠ ⟨0, 0, 0⟩
  simp only [ne_eq, Vec3.mk.injEq, not_and]
  intro _ _
  norm_num

/-- Claim C9: when the expanding bracket search exhausts its 40 iterations
without crossing the target, the fit does not raise (the embedding is a total
function): the camera is translated to the last tested offset — the
accumulated 0.1 * (2^40 - 1) forward, or its negation backward — and the
usual framing-scale dolly then runs, which at framing scale 1 is the
identity, so the final position is exactly the last tested one. -/
theorem fit_unbracketed_best_effort (fm : FloatModel) (cam : Camera)
    (render : RenderSettings) (pts : List Vec3) (fs : Rat)
    (hne : pts ≠ [])
    (hnf : (fitBracket fm cam render pts).found = none) :
    (fitBracket fm cam render pts).hiT
      = (if fitGoForward fm cam render pts then (1/10) * ((2:Rat)^40 - 1)
          else -((1/10) * ((2:Rat)^40 - 1)))
    ∧ headless_fit_z_only fm cam render pts fs
      = tiny_margin_dolly
          { cam with loc := cam.loc + (fitBracket fm cam render pts).hiT • cam.fwd } fs pts
    ∧ (fs = 1 → (headless_fit_z_only fm cam render pts fs).loc
        = cam.loc + (fitBracket fm cam render pts).hiT • cam.fwd) := by
  have h1 : (fitBracket fm cam render pts).hiT
      = 0 + (if fitGoForward fm cam render pts then (1/10) * ((2:Rat)^40 - 1)
              else -((1/10) * ((2:Rat)^40 - 1))) :=
    bracketGo_none_hiT (fitR fm cam render pts) (fitGoForward fm cam render pts) 40 0
      (fitCur fm cam render pts) (1/10) hnf
  refine ⟨by rw [h1, zero_add], headless_eq_of_none fm cam render pts fs hne hnf, ?_⟩
  intro hfs
  subst hfs
  rw [headless_eq_of_none fm cam render pts 1 hne hnf, tiny_margin_dolly_one]

/-- Witness for C9 at a concrete unbracketable input: a single on-axis point
at depth 7 — the extent is identically zero, the search never crosses, and
the theorem applies. -/
theorem fit_unbracketed_best_effort_witness :
    ([(⟨0, 0, -7⟩ : Vec3)] ≠ [])
    ∧ (fitBracket fmStub camIdent renderSquare [⟨0, 0, -7⟩]).found = none
    ∧ ((fitBracket fmStub camIdent renderSquare [⟨0, 0, -7⟩]).hiT
        = (if fitGoForward fmStub camIdent renderSquare [⟨0, 0, -7⟩]
            then (1/10) * ((2:Rat)^40 - 1) else -((1/10) * ((2:Rat)^40 - 1)))
      ∧ headless_fit_z_only fmStub camIdent renderSquare [⟨0, 0, -7⟩] 1
        = tiny_margin_dolly
            { camIdent with loc := camIdent.loc
                + (fitBracket fmStub camIdent renderSquare [⟨0, 0, -7⟩]).hiT • camIdent.fwd } 1 [⟨0, 0, -7⟩]
      ∧ ((1:Rat) = 1 → (headless_fit_z_only fmStub camIdent renderSquare [⟨0, 0, -7⟩] 1).loc
          = camIdent.loc + (fitBracket fmStub camIdent renderSquare [⟨0, 0, -7⟩]).hiT • camIdent.fwd)) :=
  ⟨by simp, fitBracket_on_axis_none fmStub (-7),
    fit_unbracketed_best_effort fmStub camIdent renderSquare [⟨0, 0, -7⟩] 1 (by simp)
      (fitBracket_on_axis_none fmStub (-7))⟩

/-- Claim C4 (amended): no backward guard translation precedes the solve.
The fitter's very first extent evaluation happens at offset 0, the unmoved
camera position, whatever the point depths; robustness against zero or
negative depths comes solely from the floor clamp max(1e-9, d) inside
r_max_at, which keeps every probed extent finite, nonnegative, and monotone
nondecreasing in the forward offset. -/
theorem fit_no_guard_clamped_extent (fm : FloatModel) (cam : Camera)
    (render : RenderSettings) (pts : List Vec3)
    (hf : dot cam.fwd cam.fwd = 1) (hr : dot cam.right cam.fwd = 0)
    (hu : dot cam.up cam.fwd = 0) (t₁ t₂ : Rat)
    (hne : pts ≠ []) (hle : t₁ ≤ t₂) :
    (fitProbes fm cam render pts).head? = some 0
    ∧ fitR fm cam render pts t₁ ≤ fitR fm cam render pts t₂
    ∧ 0 ≤ fitR fm cam render pts t₁ :=
  ⟨fitProbes_head fm cam render pts hne,
    fitR_mono fm cam render pts hf hr hu hle,
    r_max_at_nonneg cam pts _ _ _⟩

/-- Witness for the amended C4 at a concrete camera and cloud. -/
theorem fit_no_guard_clamped_extent_witness :
    (dot camIdent.fwd camIdent.fwd = 1 ∧ dot camIdent.right camIdent.fwd = 0
      ∧ dot camIdent.up camIdent.fwd = 0 ∧ ([(⟨1, 0, -2⟩ : Vec3)] ≠ []) ∧ (0:Rat) ≤ 1)
    ∧ ((fitProbes fmStub camIdent renderSquare [⟨1, 0, -2⟩]).head? = some 0
      ∧ fitR fmStub camIdent renderSquare [⟨1, 0, -2⟩] 0
          ≤ fitR fmStub camIdent renderSquare [⟨1, 0, -2⟩] 1
      ∧ 0 ≤ fitR fmStub camIdent renderSquare [⟨1, 0, -2⟩] 0) :=
  ⟨⟨by norm_num [dot, camIdent], by norm_num [dot, camIdent], by norm_num [dot, camIdent],
      by simp, by norm_num⟩,
    fit_no_guard_clamped_extent fmStub camIdent renderSquare [⟨1, 0, -2⟩]
      (by norm_num [dot, camIdent]) (by norm_num [dot, camIdent])
      (by norm_num [dot, camIdent]) 0 1 (by simp) (by norm_num)⟩

/-- Counterexample to claim C4 as stated: for a cloud whose single point sits
behind the camera on the optical axis at depth -1/2 (at or below any small
epsilon, e.g. the spec's 1e-4), the fitter does not first translate the
camera backward until the depth clears the epsilon: its first extent
evaluation is at offset 0, the unguarded starting pose, and the whole run
then moves the camera forward (to z = -0.1 * (2^40 - 1); forward is -z), so
the point's depth is negative at every position the fitter ever occupies. -/
theorem fit_near_plane_guard_counterexample :
    -(camSpace camIdent camIdent.loc ⟨0, 0, 1/2⟩).z = -(1/2)
    ∧ ((-(1/2) : Rat) ≤ 1/10000)
    ∧ (fitProbes fmStub camIdent renderSquare [⟨0, 0, 1/2⟩]).head? = some 0
    ∧ (headless_fit_z_only fmStub camIdent renderSquare [⟨0, 0, 1/2⟩] 1).loc
        = ⟨0, 0, -((1/10) * (2^40 - 1))⟩
    ∧ (headless_fit_z_only fmStub camIdent renderSquare [⟨0, 0, 1/2⟩] 1).loc
        ≠ camIdent.loc := by
  refine ⟨by norm_num [camSpace, dot, camIdent], by norm_num,
    fitProbes_head fmStub camIdent renderSquare [⟨0, 0, 1/2⟩] (by simp),
    headless_on_axis_loc fmStub (1/2), ?_⟩
  rw [headless_on_axis_loc fmStub (1/2)]
  show (⟨0, 0, -((1/10) * (2^40 - 1))⟩ : Vec3) ≠ ⟨0, 0, 0⟩
  simp only [ne_eq, Vec3.mk.injEq, not_and]
  intro _ _
  norm_num

/-- Claim C3 (amended): on the headless paths — the forced-headless entry and
the no-viewport fallback — a fit whose sampled point cloud is empty is a
no-op on the camera and raises nothing (the embedding is total). -/
theorem fit_empty_cloud_headless_noop (fm : FloatModel)
    (opView opAlign : Camera × SelState → Camera × SelState)
    (camId : Nat) (cam : Camera) (scene : Scene) (render : RenderSettings)
    (objs : List SceneObject) (margin : Rat)
    (h : world_points_evaluated objs = []) :
    headless_fit_z_only fm cam render (world_points_evaluated objs) margin = cam
    ∧ (fit_camera_to_objects fm opView opAlign camId cam scene render objs margin true).1 = cam
    ∧ (scene.viewOK = false →
        (fit_camera_to_objects fm opView opAlign camId cam scene render objs margin false).1 = cam) := by
  have hnn : headless_fit_z_only fm cam render [] margin = cam := by
    unfold headless_fit_z_only
    simp
  refine ⟨by rw [h]; exact hnn, ?_, ?_⟩
  · unfold fit_camera_to_objects
    by_cases ho : objs = []
    · simp [ho]
    · simp only [if_neg ho, if_true, h, hnn]
  · intro hv
    unfold fit_camera_to_objects
    by_cases ho : objs = []
    · simp [ho]
    · simp only [if_neg ho, hv, h, hnn, Bool.false_eq_true, if_false]

/-- Witness for the amended C3: a candidate mesh whose evaluated-mesh
extraction failed samples to the empty cloud, and the forced-headless fit
returns the camera untouched. -/
theorem fit_empty_cloud_headless_noop_witness :
    world_points_evaluated [objMeshFail] = []
    ∧ (headless_fit_z_only fmStub camIdent renderSquare
          (world_points_evaluated [objMeshFail]) (6/5) = camIdent
      ∧ (fit_camera_to_objects fmStub opId opId 3 camIdent scNoView renderSquare
          [objMeshFail] (6/5) true).1 = camIdent
      ∧ (scNoView.viewOK = false →
          (fit_camera_to_objects fmStub opId opId 3 camIdent scNoView renderSquare
            [objMeshFail] (6/5) false).1 = camIdent)) :=
  ⟨rfl, fit_empty_cloud_headless_noop fmStub opId opId 3 camIdent scNoView renderSquare
      [objMeshFail] (6/5) rfl⟩

/-- Counterexample to claim C3 as stated: on the operator-delegation path
with framing scale 6/5, a fit whose sampled cloud is empty still moves the
camera — the trailing dolly uses the default distance estimate 1.0 and
translates the camera by (6/5 - 1) * 0.1 = 1/50 along the backward axis,
even with both operators modelled as leaving all state unchanged. -/
theorem fit_empty_cloud_ui_moves :
    world_points_evaluated [objMeshFail] = []
    ∧ (fit_camera_to_objects fmStub opId opId 3 camIdent scView7 renderSquare
        [objMeshFail] (6/5) false).1.loc = ⟨0, 0, 1/50⟩
    ∧ (⟨0, 0, 1/50⟩ : Vec3) ≠ camIdent.loc := by
  refine ⟨rfl, ?_, ?_⟩
  · unfold fit_camera_to_objects
    norm_num [scView7, opId, tiny_margin_dolly, camIdent, vadd_def, vsmul_def, vneg_def,
      Vec3.mk.injEq, show world_points_evaluated [objMeshFail] = [] from rfl]
    rw [if_neg (by rw [abs_of_nonneg (by norm_num : (0:Rat) ≤ 1/5)]; norm_num :
      ¬ (|(1:Rat)/5| < 1/1000000))]
  · show (⟨0, 0, 1/50⟩ : Vec3) ≠ ⟨0, 0, 0⟩
    simp only [ne_eq, Vec3.mk.injEq, not_and]
    intro _ _
    norm_num

/-- A forward bracket search whose first test already reaches the target
returns that bracket immediately. -/
theorem bracketGo_cross_first_fwd (f : Rat → Rat) (n : Nat) (hiT hiV step : Rat)
    (hc : 1 ≤ f (hiT + step)) :
    bracketGo f true (n+1) hiT hiV step
      = ⟨some ⟨hiT, hiT + step, hiV, f (hiT + step)⟩, hiT + step, [hiT + step]⟩ := by
  unfold bracketGo
  simp only [reduceIte]
  rw [if_pos (by simpa [crossedB] using hc)]

/-- A backward bracket search whose first test already falls to the target
returns that bracket immediately. -/
theorem bracketGo_cross_first_back (f : Rat → Rat) (n : Nat) (hiT hiV step : Rat)
    (hc : f (hiT + -step) ≤ 1) :
    bracketGo f false (n+1) hiT hiV step
      = ⟨some ⟨hiT, hiT + -step, hiV, f (hiT + -step)⟩, hiT + -step, [hiT + -step]⟩ := by
  unfold bracketGo
  simp only [Bool.false_eq_true, if_false]
  rw [if_pos (by simpa [crossedB] using hc)]

set_option maxRecDepth 8000 in
/-- A second fit from a camera already at forward offset T, with the extent
at or above the target there and at or below it one initial bracket step
back, brackets backward immediately and ends within that step:
the solve translation lies in [-1/10, 0]. -/
theorem call2_back (fm : FloatModel) (cam : Camera) (render : RenderSettings)
    (pts : List Vec3) (hne : pts ≠ []) (T : Rat)
    (hT1 : 1 ≤ fitR fm cam render pts T)
    (hTm : fitR fm cam render pts (T + -(1/10)) ≤ 1) :
    ∃ t₂ : Rat,
      (headless_fit_z_only fm { cam with loc := cam.loc + T • cam.fwd } render pts 1).loc
        = (cam.loc + T • cam.fwd) + t₂ • cam.fwd ∧ -(1/10) ≤ t₂ ∧ t₂ ≤ 0 := by
  have hshift : ∀ t : Rat,
      fitR fm { cam with loc := cam.loc + T • cam.fwd } render pts t
        = fitR fm cam render pts (T + t) := fun t => fitR_shift fm cam render pts T t
  have hcur2 : fitCur fm { cam with loc := cam.loc + T • cam.fwd } render pts
      = fitR fm cam render pts T := by
    show fitR fm { cam with loc := cam.loc + T • cam.fwd } render pts 0 = _
    rw [hshift 0, add_zero]
  have hgo2 : fitGoForward fm { cam with loc := cam.loc + T • cam.fwd } render pts = false := by
    unfold fitGoForward
    rw [hcur2]
    simp only [decide_eq_false_iff_not, not_lt]
    exact hT1
  have hcb : fitR fm { cam with loc := cam.loc + T • cam.fwd } render pts (0 + -(1/10)) ≤ 1 := by
    rw [hshift]
    have harg : T + (0 + -(1/10)) = T + -(1/10) := by ring
    rw [harg]
    exact hTm
  have hbr2 : (fitBracket fm { cam with loc := cam.loc + T • cam.fwd } render pts).found
      = some ⟨0, 0 + -(1/10),
          fitCur fm { cam with loc := cam.loc + T • cam.fwd } render pts,
          fitR fm { cam with loc := cam.loc + T • cam.fwd } render pts (0 + -(1/10))⟩ := by
    unfold fitBracket
    rw [hgo2, show (40:Nat) = 39 + 1 from rfl,
      bracketGo_cross_first_back (fitR fm { cam with loc := cam.loc + T • cam.fwd } render pts)
        39 0 (fitCur fm { cam with loc := cam.loc + T • cam.fwd } render pts) (1/10) hcb]
  have hrange := bisectGo_range
    (fitR fm { cam with loc := cam.loc + T • cam.fwd } render pts)
    (fitGoForward fm { cam with loc := cam.loc + T • cam.fwd } render pts) 40
    ⟨0, 0 + -(1/10),
      fitCur fm { cam with loc := cam.loc + T • cam.fwd } render pts,
      fitR fm { cam with loc := cam.loc + T • cam.fwd } render pts (0 + -(1/10))⟩
    (-(1/10)) 0 (by norm_num) le_rfl (by norm_num) (by norm_num)
  refine ⟨_, ?_, hrange.1, hrange.2⟩
  rw [headless_eq_of_found fm { cam with loc := cam.loc + T • cam.fwd } render pts 1 _ hne hbr2,
    tiny_margin_dolly_one]
  rfl

set_option maxRecDepth 8000 in
/-- A second fit from a camera already at forward offset T, with the extent
strictly below the target there and at or above it one initial bracket step
forward, brackets forward immediately and ends within that step: the solve
translation lies in [0, 1/10]. -/
theorem call2_fwd (fm : FloatModel) (cam : Camera) (render : RenderSettings)
    (pts : List Vec3) (hne : pts ≠ []) (T : Rat)
    (hTlt : fitR fm cam render pts T < 1)
    (hTp : 1 ≤ fitR fm cam render pts (T + 1/10)) :
    ∃ t₂ : Rat,
      (headless_fit_z_only fm { cam with loc := cam.loc + T • cam.fwd } render pts 1).loc
        = (cam.loc + T • cam.fwd) + t₂ • cam.fwd ∧ 0 ≤ t₂ ∧ t₂ ≤ 1/10 := by
  have hshift : ∀ t : Rat,
      fitR fm { cam with loc := cam.loc + T • cam.fwd } render pts t
        = fitR fm cam render pts (T + t) := fun t => fitR_shift fm cam render pts T t
  have hcur2 : fitCur fm { cam with loc := cam.loc + T • cam.fwd } render pts
      = fitR fm cam render pts T := by
    show fitR fm { cam with loc := cam.loc + T • cam.fwd } render pts 0 = _
    rw [hshift 0, add_zero]
  have hgo2 : fitGoForward fm { cam with loc := cam.loc + T • cam.fwd } render pts = true := by
    unfold fitGoForward
    rw [hcur2]
    simpa using hTlt
  have hcb : 1 ≤ fitR fm { cam with loc := cam.loc + T • cam.fwd } render pts (0 + 1/10) := by
    rw [hshift]
    have harg : T + (0 + 1/10) = T + 1/10 := by ring
    rw [harg]
    exact hTp
  have hbr2 : (fitBracket fm { cam with loc := cam.loc + T • cam.fwd } render pts).found
      = some ⟨0, 0 + 1/10,
          fitCur fm { cam with loc := cam.loc + T • cam.fwd } render pts,
          fitR fm { cam with loc := cam.loc + T • cam.fwd } render pts (0 + 1/10)⟩ := by
    unfold fitBracket
    rw [hgo2, show (40:Nat) = 39 + 1 from rfl,
      bracketGo_cross_first_fwd (fitR fm { cam with loc := cam.loc + T • cam.fwd } render pts)
        39 0 (fitCur fm { cam with loc := cam.loc + T • cam.fwd } render pts) (1/10) hcb]
  have hrange := bisectGo_range
    (fitR fm { cam with loc := cam.loc + T • cam.fwd } render pts)
    (fitGoForward fm { cam with loc := cam.loc + T • cam.fwd } render pts) 40
    ⟨0, 0 + 1/10,
      fitCur fm { cam with loc := cam.loc + T • cam.fwd } render pts,
      fitR fm { cam with loc := cam.loc + T • cam.fwd } render pts (0 + 1/10)⟩
    0 (1/10) le_rfl (by norm_num) (by norm_num) (by norm_num)
  refine ⟨_, ?_, hrange.1, hrange.2⟩
  rw [headless_eq_of_found fm { cam with loc := cam.loc + T • cam.fwd } render pts 1 _ hne hbr2,
    tiny_margin_dolly_one]
  rfl

/-- Claim C5 (amended): at framing scale 1 (so the trailing dolly is the
identity), after a first call whose bracket search succeeds, a second
identical call brackets at its very first probe and its translation along
the forward axis has magnitude at most the initial bracket step 0.1 — the
near-idempotence the code actually guarantees.  (With framing scales away
from 1 the dolly can defeat this entirely; see the counterexample.) -/
theorem fit_second_call_bounded (fm : FloatModel) (cam : Camera)
    (render : RenderSettings) (pts : List Vec3)
    (hf : dot cam.fwd cam.fwd = 1) (hr : dot cam.right cam.fwd = 0)
    (hu : dot cam.up cam.fwd = 0) (hne : pts ≠ []) (b : Bracket)
    (hbr : (fitBracket fm cam render pts).found = some b) :
    ∃ t₂ : Rat,
      (headless_fit_z_only fm (headless_fit_z_only fm cam render pts 1) render pts 1).loc
        = (headless_fit_z_only fm cam render pts 1).loc + t₂ • cam.fwd
      ∧ |t₂| ≤ 1/10 := by
  by_cases hgo : fitGoForward fm cam render pts = true
  · -- first call went forward: it ends with the extent at or above target
    have hcur : fitCur fm cam render pts < 1 := by
      have h1 := hgo
      unfold fitGoForward at h1
      exact of_decide_eq_true h1
    have hbrB : (bracketGo (fitR fm cam render pts) true 40 0
        (fitCur fm cam render pts) (1/10)).found = some b := by
      have h1 := hbr
      unfold fitBracket at h1
      rw [hgo] at h1
      exact h1
    obtain ⟨hbl, hbh, hbw⟩ := bracketGo_found_forward (fitR fm cam render pts) 40 0
      (fitCur fm cam render pts) (1/10) b (by norm_num) hcur hbrB
    obtain ⟨hsl, hsh, hsw⟩ := bisectGo_forward (fitR fm cam render pts) 40
      ⟨b.loT, b.hiT, b.loV, b.hiV⟩ hbl hbh
    have hbis : (fitBisect fm cam render pts b).1
        = (bisectGo (fitR fm cam render pts) true 40 ⟨b.loT, b.hiT, b.loV, b.hiV⟩).1 := by
      unfold fitBisect
      rw [hgo]
    have hwid : (bisectGo (fitR fm cam render pts) true 40 ⟨b.loT, b.hiT, b.loV, b.hiV⟩).1.hiT
        - (bisectGo (fitR fm cam render pts) true 40 ⟨b.loT, b.hiT, b.loV, b.hiV⟩).1.loT
        ≤ 1/10 := by
      rw [hsw]
      have hp : (0:Rat) < 2^40 := by positivity
      calc (Bisect4.hiT ⟨b.loT, b.hiT, b.loV, b.hiV⟩ - Bisect4.loT ⟨b.loT, b.hiT, b.loV, b.hiV⟩) / 2^40
          = (b.hiT - b.loT) / 2^40 := rfl
        _ ≤ ((1/10) * 2^40) / 2^40 := (div_le_div_iff_of_pos_right hp).mpr hbw
        _ = 1/10 := by field_simp; ring
    have hTm : fitR fm cam render pts
        ((bisectGo (fitR fm cam render pts) true 40 ⟨b.loT, b.hiT, b.loV, b.hiV⟩).1.hiT + -(1/10)) ≤ 1 := by
      refine le_of_lt (lt_of_le_of_lt ?_ hsl)
      exact fitR_mono fm cam render pts hf hr hu (by linarith)
    obtain ⟨t₂, heq, hlo2, hhi2⟩ := call2_back fm cam render pts hne
      ((bisectGo (fitR fm cam render pts) true 40 ⟨b.loT, b.hiT, b.loV, b.hiV⟩).1.hiT) hsh hTm
    have hc1 : headless_fit_z_only fm cam render pts 1
        = { cam with loc := cam.loc
            + ((bisectGo (fitR fm cam render pts) true 40 ⟨b.loT, b.hiT, b.loV, b.hiV⟩).1.hiT) • cam.fwd } := by
      rw [headless_eq_of_found fm cam render pts 1 b hne hbr, tiny_margin_dolly_one, hbis]
    refine ⟨t₂, ?_, abs_le.mpr ⟨by linarith, by linarith⟩⟩
    rw [hc1]
    exact heq
  · -- first call went backward: it ends with the extent at or below target
    have hgoF : fitGoForward fm cam render pts = false := by
      revert hgo
      cases fitGoForward fm cam render pts <;> simp
    have hcur : 1 ≤ fitCur fm cam render pts := by
      have h1 := hgoF
      unfold fitGoForward at h1
      simpa [decide_eq_false_iff_not, not_lt] using h1
    have hbrB : (bracketGo (fitR fm cam render pts) false 40 0
        (fitCur fm cam render pts) (1/10)).found = some b := by
      have h1 := hbr
      unfold fitBracket at h1
      rw [hgoF] at h1
      exact h1
    obtain ⟨hbl, hbh, hbw⟩ := bracketGo_found_backward (fitR fm cam render pts) 40 0
      (fitCur fm cam render pts) (1/10) b (by norm_num) hcur hbrB
    obtain ⟨hsl, hsh, hsw⟩ := bisectGo_backward (fitR fm cam render pts) 40
      ⟨b.loT, b.hiT, b.loV, b.hiV⟩ hbl hbh
    have hbis : (fitBisect fm cam render pts b).1
        = (bisectGo (fitR fm cam render pts) false 40 ⟨b.loT, b.hiT, b.loV, b.hiV⟩).1 := by
      unfold fitBisect
      rw [hgoF]
    have hwid : (bisectGo (fitR fm cam render pts) false 40 ⟨b.loT, b.hiT, b.loV, b.hiV⟩).1.loT
        - (bisectGo (fitR fm cam render pts) false 40 ⟨b.loT, b.hiT, b.loV, b.hiV⟩).1.hiT
        ≤ 1/10 := by
      rw [hsw]
      have hp : (0:Rat) < 2^40 := by positivity
      calc (Bisect4.loT ⟨b.loT, b.hiT, b.loV, b.hiV⟩ - Bisect4.hiT ⟨b.loT, b.hiT, b.loV, b.hiV⟩) / 2^40
          = (b.loT - b.hiT) / 2^40 := rfl
        _ ≤ ((1/10) * 2^40) / 2^40 := (div_le_div_iff_of_pos_right hp).mpr hbw
        _ = 1/10 := by field_simp; ring
    have hc1 : headless_fit_z_only fm cam render pts 1
        = { cam with loc := cam.loc
            + ((bisectGo (fitR fm cam render pts) false 40 ⟨b.loT, b.hiT, b.loV, b.hiV⟩).1.hiT) • cam.fwd } := by
      rw [headless_eq_of_found fm cam render pts 1 b hne hbr, tiny_margin_dolly_one, hbis]
    by_cases hTlt : fitR fm cam render pts
        ((bisectGo (fitR fm cam render pts) false 40 ⟨b.loT, b.hiT, b.loV, b.hiV⟩).1.hiT) < 1
    · have hTp : 1 ≤ fitR fm cam render pts
          ((bisectGo (fitR fm cam render pts) false 40 ⟨b.loT, b.hiT, b.loV, b.hiV⟩).1.hiT + 1/10) := by
        refine le_trans hsl ?_
        exact fitR_mono fm cam render pts hf hr hu (by linarith)
      obtain ⟨t₂, heq, hlo2, hhi2⟩ := call2_fwd fm cam render pts hne
        ((bisectGo (fitR fm cam render pts) false 40 ⟨b.loT, b.hiT, b.loV, b.hiV⟩).1.hiT) hTlt hTp
      refine ⟨t₂, ?_, abs_le.mpr ⟨by linarith, by linarith⟩⟩
      rw [hc1]
      exact heq
    · have hT1 : 1 ≤ fitR fm cam render pts
          ((bisectGo (fitR fm cam render pts) false 40 ⟨b.loT, b.hiT, b.loV, b.hiV⟩).1.hiT) :=
        not_lt.mp hTlt
      have hTm : fitR fm cam render pts
          ((bisectGo (fitR fm cam render pts) false 40 ⟨b.loT, b.hiT, b.loV, b.hiV⟩).1.hiT + -(1/10)) ≤ 1 := by
        refine le_trans ?_ hsh
        exact fitR_mono fm cam render pts hf hr hu (by linarith)
      obtain ⟨t₂, heq, hlo2, hhi2⟩ := call2_back fm cam render pts hne
        ((bisectGo (fitR fm cam render pts) false 40 ⟨b.loT, b.hiT, b.loV, b.hiV⟩).1.hiT) hT1 hTm
      refine ⟨t₂, ?_, abs_le.mpr ⟨by linarith, by linarith⟩⟩
      rw [hc1]
      exact heq

set_option maxRecDepth 4000 in
/-- Witness for the amended C5: a single point with lateral offset 1 at
depth 2 starts exactly at the frame edge, the first call's bracket search
crosses at its first backward probe, and the theorem bounds the second
call's translation. -/
theorem fit_second_call_bounded_witness :
    (dot camIdent.fwd camIdent.fwd = 1 ∧ dot camIdent.right camIdent.fwd = 0
      ∧ dot camIdent.up camIdent.fwd = 0 ∧ ([(⟨1, 0, -2⟩ : Vec3)] ≠ [])
      ∧ (fitBracket fmStub camIdent renderSquare [⟨1, 0, -2⟩]).found
          = some ⟨0, -(1/10), 1, 20/21⟩)
    ∧ ∃ t₂ : Rat,
      (headless_fit_z_only fmStub
          (headless_fit_z_only fmStub camIdent renderSquare [⟨1, 0, -2⟩] 1)
          renderSquare [⟨1, 0, -2⟩] 1).loc
        = (headless_fit_z_only fmStub camIdent renderSquare [⟨1, 0, -2⟩] 1).loc
            + t₂ • camIdent.fwd
      ∧ |t₂| ≤ 1/10 :=
  ⟨⟨by norm_num [dot, camIdent], by norm_num [dot, camIdent], by norm_num [dot, camIdent],
      by simp, by with_unfolding_all decide⟩,
    fit_second_call_bounded fmStub camIdent renderSquare [⟨1, 0, -2⟩]
      (by norm_num [dot, camIdent]) (by norm_num [dot, camIdent])
      (by norm_num [dot, camIdent]) (by simp) ⟨0, -(1/10), 1, 20/21⟩
      (by with_unfolding_all decide)⟩

/-- The half-angle tangents of any camera carrying the cdPersp data block
under the rational stub model. -/
theorem fitTan_cdPersp (cam : Camera) (hd : cam.data = cdPersp) :
    fitTanFx fmStub cam renderSquare = 1/2 ∧ fitTanFy fmStub cam renderSquare = 1/2 := by
  unfold fitTanFx fitTanFy
  rw [hd]
  norm_num [get_fov_xy, pyOrF, fmStub, cdPersp]

/-- Closed form of the probed extent on ptsTwo for the identity camera: the
off-axis point at depth 2 is the only contributor. -/
theorem fitR_ptsTwo (t : Rat) :
    fitR fmStub camIdent renderSquare ptsTwo t
      = 1 / (max (1/1000000000) (2 - t) * (1/2)) := by
  obtain ⟨hx, hy⟩ := fitTan_cdPersp camIdent rfl
  unfold fitR r_max_at
  rw [hx, hy]
  simp only [ptsTwo, List.foldl_cons, List.foldl_nil]
  have hd1 : (0:Rat) < max (1/1000000000) (2 - t) := lt_of_lt_of_le (by norm_num) (le_max_left _ _)
  have hcp1 : camSpace camIdent (camIdent.loc + t • camIdent.fwd) ⟨1, 0, -2⟩
      = ⟨1, 0, t - 2⟩ := by
    norm_num [camSpace, dot, camIdent, vadd_def, vsmul_def, vsub_def]
    ring
  have hcp2 : camSpace camIdent (camIdent.loc + t • camIdent.fwd) ⟨0, 0, -300000000000⟩
      = ⟨0, 0, t - 300000000000⟩ := by
    norm_num [camSpace, dot, camIdent, vadd_def, vsmul_def, vsub_def]
    ring
  rw [hcp1, hcp2]
  have e1 : -(Vec3.mk 1 0 (t - 2)).z = 2 - t := by norm_num
  have e2 : -(Vec3.mk 0 0 (t - 300000000000)).z = 300000000000 - t := by norm_num
  rw [e1, e2]
  have hA : (0:Rat) ≤ 1 / (max (1/1000000000) (2 - t) * (1/2)) := by positivity
  have h1 : |(Vec3.mk 1 0 (t - 2)).x| = 1 := by norm_num
  have h2 : |(Vec3.mk 1 0 (t - 2)).y| = 0 := by norm_num
  rw [h1, h2]
  have hd2 : (0:Rat) < max (1/1000000000) (300000000000 - t) :=
    lt_of_lt_of_le (by norm_num) (le_max_left _ _)
  simp only [zero_div]
  rw [max_eq_right hA, max_eq_left hA, max_eq_left hA, max_eq_left hA]

/-- Below offset zero the ptsTwo extent stays strictly below the target. -/
theorem fitR_ptsTwo_lt_one (s : Rat) (hs : s < 0) :
    fitR fmStub camIdent renderSquare ptsTwo s < 1 := by
  rw [fitR_ptsTwo, max_eq_right (by linarith : (1:Rat)/1000000000 ≤ 2 - s)]
  rw [div_lt_one (by nlinarith)]
  nlinarith

/-- At or below offset zero the ptsTwo extent never exceeds the target. -/
theorem fitR_ptsTwo_le_one (s : Rat) (hs : s ≤ 0) :
    fitR fmStub camIdent renderSquare ptsTwo s ≤ 1 := by
  rw [fitR_ptsTwo, max_eq_right (by linarith : (1:Rat)/1000000000 ≤ 2 - s)]
  rw [div_le_one (by nlinarith)]
  nlinarith

/-- A backward bisection over an interval on which the extent never exceeds
the target keeps its lo endpoint and halves toward it from hi: the final hi
is lo plus the initial signed width over 2^fuel. -/
theorem bisectGo_back_allbelow (f : Rat → Rat) :
    ∀ (fuel : Nat) (s : Bisect4),
      (∀ t, s.hiT ≤ t → t ≤ s.loT → ¬ (1 < f t)) → s.hiT ≤ s.loT →
      (bisectGo f false fuel s).1.hiT = s.loT + (s.hiT - s.loT) / 2^fuel
      ∧ (bisectGo f false fuel s).1.loT = s.loT := by
  intro fuel
  induction fuel with
  | zero =>
    intro s _ _
    constructor
    · show s.hiT = _
      norm_num
    · rfl
  | succ n ih =>
    intro s hall hle
    unfold bisectGo
    have hmid1 : s.hiT ≤ (1/2) * (s.loT + s.hiT) := by linarith
    have hmid2 : (1/2) * (s.loT + s.hiT) ≤ s.loT := by linarith
    have hv : lowSideB false (f ((1/2) * (s.loT + s.hiT))) = false := by
      simp only [lowSideB, Bool.false_eq_true, if_false, decide_eq_false_iff_not]
      exact hall _ hmid1 hmid2
    simp only [hv, Bool.false_eq_true, if_false]
    obtain ⟨h1, h2⟩ := ih ⟨s.loT, (1/2) * (s.loT + s.hiT), s.loV, f _⟩
      (by
        intro t ht1 ht2
        exact hall t (le_trans hmid1 ht1) ht2)
      hmid2
    refine ⟨?_, h2⟩
    rw [h1]
    show s.loT + ((1/2) * (s.loT + s.hiT) - s.loT) / 2^n = _
    rw [pow_succ]
    field_simp
    ring

/-- At framing scale 10 on ptsTwo, the dolly of a camera at forward offset
T ≤ 0 moves it backward by nine tenths of the median depth — the far point's
depth 3e11 - T — netting offset T - (9/10) * (3e11 - T). -/
theorem dolly10_shift (T : Rat) (hT : T ≤ 0) :
    tiny_margin_dolly { camIdent with loc := camIdent.loc + T • camIdent.fwd } 10 ptsTwo
      = { camIdent with loc := camIdent.loc
          + (T - (9/10) * (300000000000 - T)) • camIdent.fwd } := by
  unfold tiny_margin_dolly
  rw [if_neg (by rw [show (10:Rat) - 1 = 9 from by norm_num,
    abs_of_nonneg (by norm_num : (0:Rat) ≤ 9)]; norm_num)]
  have hdz1 : -(camSpace { camIdent with loc := camIdent.loc + T • camIdent.fwd }
      (Camera.loc { camIdent with loc := camIdent.loc + T • camIdent.fwd })
      ⟨1, 0, -2⟩).z = 2 - T := by
    norm_num [camSpace, dot, camIdent, vadd_def, vsmul_def, vsub_def]
    ring
  have hdz2 : -(camSpace { camIdent with loc := camIdent.loc + T • camIdent.fwd }
      (Camera.loc { camIdent with loc := camIdent.loc + T • camIdent.fwd })
      ⟨0, 0, -300000000000⟩).z = 300000000000 - T := by
    norm_num [camSpace, dot, camIdent, vadd_def, vsmul_def, vsub_def]
    ring
  simp only [ptsTwo, List.filterMap_cons, List.filterMap_nil, hdz1, hdz2]
  rw [if_pos (by linarith : (2:Rat) - T > 1/1000000), if_pos (by linarith :
    (300000000000:Rat) - T > 1/1000000)]
  simp only [sortAsc, insertSorted, List.foldr]
  rw [if_neg (by simp), if_neg (by simp),
    if_pos (by linarith : (2:Rat) - T ≤ 300000000000 - T)]
  norm_num [List.getD, camIdent, vadd_def, vsmul_def, vneg_def, Vec3.mk.injEq,
    Camera.mk.injEq]
  ring_nf

/-- Counterexample to claim C5 as stated: on ptsTwo with framing scale 10
the first call converges — its bracket search crosses at the very first
backward probe and the bisection runs normally — yet the second identical
call translates the camera by more than 1e11 world units: the first call's
dolly (nine tenths of the 3e11 median depth) pushes the camera so far back
that the second call's forward bracket search exhausts its budget, keeps its
best-effort move of about 1.1e11, and then the dolly displaces it again. -/
theorem fit_second_call_runaway :
    (fitBracket fmStub camIdent renderSquare ptsTwo).found.isSome = true
    ∧ (headless_fit_z_only fmStub
          (headless_fit_z_only fmStub camIdent renderSquare ptsTwo 10)
          renderSquare ptsTwo 10).loc.z
        - (headless_fit_z_only fmStub camIdent renderSquare ptsTwo 10).loc.z
      ≥ 100000000000 := by
  have hm0 : max ((1:Rat)/1000000000) (2 - 0) = 2 := by
    rw [max_eq_right (by norm_num : (1:Rat)/1000000000 ≤ 2 - 0)]
    norm_num
  have hgo1 : fitGoForward fmStub camIdent renderSquare ptsTwo = false := by
    unfold fitGoForward fitCur
    rw [fitR_ptsTwo 0, hm0]
    norm_num
  have hcb1 : fitR fmStub camIdent renderSquare ptsTwo (0 + -(1/10)) ≤ 1 :=
    fitR_ptsTwo_le_one _ (by norm_num)
  have hbr1 : (fitBracket fmStub camIdent renderSquare ptsTwo).found
      = some ⟨0, 0 + -(1/10), fitCur fmStub camIdent renderSquare ptsTwo,
          fitR fmStub camIdent renderSquare ptsTwo (0 + -(1/10))⟩ := by
    unfold fitBracket
    rw [hgo1, show (40:Nat) = 39 + 1 from rfl,
      bracketGo_cross_first_back (fitR fmStub camIdent renderSquare ptsTwo) 39 0
        (fitCur fmStub camIdent renderSquare ptsTwo) (1/10) hcb1]
  have hbis1 : (fitBisect fmStub camIdent renderSquare ptsTwo
      ⟨0, 0 + -(1/10), fitCur fmStub camIdent renderSquare ptsTwo,
        fitR fmStub camIdent renderSquare ptsTwo (0 + -(1/10))⟩).1.hiT
      = 0 + ((0 + -(1/10)) - 0) / 2^40 := by
    unfold fitBisect
    rw [hgo1]
    refine (bisectGo_back_allbelow (fitR fmStub camIdent renderSquare ptsTwo) 40 _ ?_ ?_).1
    · intro t h1 h2
      have h2' : t ≤ (0:Rat) := h2
      exact not_lt.mpr (fitR_ptsTwo_le_one t h2')
    · show (0:Rat) + -(1/10) ≤ 0
      norm_num
  set T1 : Rat := (0 + ((0 + -(1/10)) - 0) / 2^40)
      - (9/10) * (300000000000 - (0 + ((0 + -(1/10)) - 0) / 2^40)) with hT1def
  have hc1 : headless_fit_z_only fmStub camIdent renderSquare ptsTwo 10
      = { camIdent with loc := camIdent.loc + T1 • camIdent.fwd } := by
    rw [headless_eq_of_found fmStub camIdent renderSquare ptsTwo 10 _ (by simp [ptsTwo]) hbr1,
      hbis1]
    exact dolly10_shift _ (by norm_num)
  have hT1lt : T1 < 0 := by
    rw [hT1def]
    norm_num
  have hshift : ∀ t : Rat,
      fitR fmStub { camIdent with loc := camIdent.loc + T1 • camIdent.fwd } renderSquare ptsTwo t
        = fitR fmStub camIdent renderSquare ptsTwo (T1 + t) :=
    fun t => fitR_shift fmStub camIdent renderSquare ptsTwo T1 t
  have hgo2 : fitGoForward fmStub { camIdent with loc := camIdent.loc + T1 • camIdent.fwd }
      renderSquare ptsTwo = true := by
    unfold fitGoForward fitCur
    rw [hshift 0, add_zero]
    simp only [decide_eq_true_eq]
    exact fitR_ptsTwo_lt_one T1 hT1lt
  have hnf2 : (fitBracket fmStub { camIdent with loc := camIdent.loc + T1 • camIdent.fwd }
      renderSquare ptsTwo).found = none := by
    unfold fitBracket
    rw [hgo2]
    apply bracketGo_none_forward_bounded _ 40 0 _ (1/10) (by norm_num)
    intro t ht
    rw [hshift t]
    apply fitR_ptsTwo_lt_one
    have hnum : T1 < -269000000000 := by
      rw [hT1def]
      norm_num
    have hstep : (0:Rat) + (1/10) * (2^40 - 1) ≤ 110000000000 := by norm_num
    linarith
  have hfb2 : fitBracket fmStub { camIdent with loc := camIdent.loc + T1 • camIdent.fwd }
      renderSquare ptsTwo
      = bracketGo (fitR fmStub { camIdent with loc := camIdent.loc + T1 • camIdent.fwd }
          renderSquare ptsTwo) true 40 0
          (fitCur fmStub { camIdent with loc := camIdent.loc + T1 • camIdent.fwd }
            renderSquare ptsTwo) (1/10) := by
    unfold fitBracket
    rw [hgo2]
  have h2hiT : (fitBracket fmStub { camIdent with loc := camIdent.loc + T1 • camIdent.fwd }
      renderSquare ptsTwo).hiT = 0 + (1/10) * ((2:Rat)^40 - 1) := by
    have h := bracketGo_none_hiT
      (fitR fmStub { camIdent with loc := camIdent.loc + T1 • camIdent.fwd } renderSquare ptsTwo)
      true 40 0
      (fitCur fmStub { camIdent with loc := camIdent.loc + T1 • camIdent.fwd } renderSquare ptsTwo)
      (1/10) (by rw [← hfb2]; exact hnf2)
    rw [hfb2, h]
    simp
  have hc2 : headless_fit_z_only fmStub
      { camIdent with loc := camIdent.loc + T1 • camIdent.fwd } renderSquare ptsTwo 10
      = { camIdent with loc := camIdent.loc
          + ((T1 + (0 + (1/10) * ((2:Rat)^40 - 1)))
              - (9/10) * (300000000000 - (T1 + (0 + (1/10) * ((2:Rat)^40 - 1))))) • camIdent.fwd } := by
    rw [headless_eq_of_none fmStub _ renderSquare ptsTwo 10 (by simp [ptsTwo]) hnf2, h2hiT]
    show tiny_margin_dolly
        { camIdent with loc := (camIdent.loc + T1 • camIdent.fwd)
            + (0 + (1/10) * ((2:Rat)^40 - 1)) • camIdent.fwd } 10 ptsTwo = _
    rw [add_smul_smul]
    refine dolly10_shift _ ?_
    rw [hT1def]
    norm_num
  rw [hc1] at *
  refine ⟨by rw [hbr1]; rfl, ?_⟩
  rw [hc2]
  show (0:Rat) + ((T1 + (0 + (1/10) * ((2:Rat)^40 - 1)))
      - (9/10) * (300000000000 - (T1 + (0 + (1/10) * ((2:Rat)^40 - 1))))) * (-1)
      - ((0:Rat) + T1 * (-1)) ≥ 100000000000
  rw [hT1def]
  norm_num

end UGC
